import Mathlib

/-!
Shallow embedding of the real-time game-session engine of the
`gyroscope-app` repository.

Sources embedded here:
* the shared TypeScript data model (`src/types/index.ts`);
* the submit-answer route (`frontend/src/app/api/game/answer/route.ts`);
* the start-game route, the advance-round route and the end-session route
  (the `game/session/[sessionId]` route family);
* the session-creation route (`game/session/[sessionId]/route.ts`, POST);
* the Go realtime hub (`websocket-service` `main.go`: `Hub`, `Client`,
  `broadcastToRoom`).

Modelling conventions:
* TypeScript / Go `number`/`float64` values are modelled as `Rat` with exact
  arithmetic; IEEE-754 rounding is out of scope.
* ISO-8601 timestamp strings are modelled as an abstract clock value `Nat`
  (ISO-8601 string comparison is chronological comparison, so the ordering
  is preserved by this abstraction).  Each request handler receives the
  current clock value `now` as an explicit argument.
* In-place mutation of the shared mock-session object is modelled by state
  passing: every handler returns the post-state engine, and on an early
  error return the post-state is the unmodified input engine, exactly as in
  the TypeScript code where every rejection happens before the first
  mutation.
* Presentation-only fields that no embedded handler reads (question title,
  description, media url, hint, option colours, avatar urls, ...) are
  omitted from the structures.
-/

namespace GyroApp

/-- Euler-angle orientation sample, from `GyroscopeData` in
`src/types/index.ts` (`alpha`, `beta`, `gamma` are TS numbers). -/
structure GyroscopeData where
  alpha : Rat
  beta : Rat
  gamma : Rat
  deriving DecidableEq, Repr

/-- Touch sample, from `TouchData` in the shared types. -/
structure TouchData where
  x : Rat
  y : Rat
  pressure : Option Rat
  timestamp : Rat
  deriving DecidableEq, Repr

/-- Speech-recognition sample, from `VoiceData` in the shared types. -/
structure VoiceData where
  text : String
  confidence : Rat
  language : String
  duration : Rat
  deriving DecidableEq, Repr

/-- Recognized-gesture sample, from `GestureData` in the shared types
(the optional `landmarks` blob is presentation-only and omitted). -/
structure GestureData where
  type : String
  confidence : Rat
  deriving DecidableEq, Repr

/-- Bundle of optional modality payloads, from `SensorData`. -/
structure SensorData where
  gyroscope : Option GyroscopeData
  touch : Option TouchData
  voice : Option VoiceData
  gesture : Option GestureData
  deriving DecidableEq, Repr

/-- The TS union `string | number | boolean` used for `answer` and
`correct_answer`.  JS `===` between two such values is equality on this
closed union (values of different runtime type are never `===`). -/
inductive AnswerValue where
  | str (s : String)
  | num (q : Rat)
  | boolean (b : Bool)
  deriving DecidableEq, Repr

/-- Question type tag, from `QuestionType` in the shared types. -/
inductive QuestionType where
  | multiple_choice
  | true_false
  | orientation_match
  | gesture_recognition
  | voice_command
  | multi_modal
  deriving DecidableEq, Repr

/-- Response type tag, from `ResponseType` in the shared types. -/
inductive ResponseType where
  | multiple_choice
  | true_false
  | gyroscope
  | touch
  | voice
  | gesture
  | multi_modal
  deriving DecidableEq, Repr

/-- Game/session status, from `GameStatus` in the shared types. -/
inductive GameStatus where
  | waiting
  | countdown
  | question
  | results
  | leaderboard
  | finished
  deriving DecidableEq, Repr

/-- Per-round status, from the `status` field of `GameRound`. -/
inductive RoundStatus where
  | waiting
  | active
  | finished
  deriving DecidableEq, Repr

/-- User record (fields the engine reads: `id`, `username`). -/
structure User where
  id : String
  username : String
  deriving DecidableEq, Repr

/-- Question record, from `Question` in the shared types, restricted to the
fields the embedded handlers read. -/
structure Question where
  id : String
  session_id : String
  type : QuestionType
  correct_answer : Option AnswerValue
  target_data : Option SensorData
  time_limit : Rat
  points : Rat
  round_number : Nat
  deriving DecidableEq, Repr

/-- One participant's recorded submission, from `PlayerResponse`. -/
structure PlayerResponse where
  id : String
  session_id : String
  user_id : String
  question_id : String
  response_type : ResponseType
  answer_value : Option AnswerValue
  response_data : Option SensorData
  confidence_score : Rat
  accuracy_score : Rat
  time_to_respond : Rat
  points_awarded : Rat
  is_correct : Bool
  submitted_at : Nat
  created_at : Nat
  deriving DecidableEq, Repr

/-- Leaderboard entry, from `PlayerScore` in the shared types. -/
structure PlayerScore where
  user_id : String
  session_id : String
  user : User
  score : Rat
  rank : Nat
  accuracy : Rat
  updated_at : Nat
  deriving DecidableEq, Repr

/-- In-session player record, from `GamePlayer`. -/
structure GamePlayer where
  user : User
  is_connected : Bool
  is_ready : Bool
  current_response : Option PlayerResponse
  total_score : Rat
  rank : Nat
  joined_at : Nat
  deriving DecidableEq, Repr

/-- Round record, from `GameRound`. -/
structure GameRound where
  id : String
  session_id : String
  question : Question
  status : RoundStatus
  start_time : Option Nat
  end_time : Option Nat
  time_remaining : Rat
  responses : List PlayerResponse
  deriving DecidableEq, Repr

/-- Session record, from `GameSession` (the `game_type` string is
presentation-only and omitted). -/
structure GameSession where
  id : String
  room_id : String
  status : GameStatus
  current_round : Nat
  total_rounds : Nat
  start_time : Option Nat
  end_time : Option Nat
  created_at : Nat
  updated_at : Nat
  deriving DecidableEq, Repr

/-- Session settings, from `GameSettings`. -/
structure GameSettings where
  max_players : Nat
  questions_per_game : Nat
  time_per_question : Rat
  points_per_correct : Rat
  speed_bonus_enabled : Bool
  multi_modal_enabled : Bool
  show_correct_answer : Bool
  allow_late_join : Bool
  deriving DecidableEq, Repr

/-- Countdown/round timer, from `GameTimer`. -/
structure GameTimer where
  total_time : Rat
  remaining_time : Rat
  is_running : Bool
  start_time : Option Nat
  end_time : Option Nat
  deriving DecidableEq, Repr

/-- Whole in-memory game state for one session, from `GameEngine`. -/
structure GameEngine where
  session : GameSession
  current_round : Option GameRound
  questions : List Question
  players : List GamePlayer
  scores : List PlayerScore
  settings : GameSettings
  status : GameStatus
  timer : GameTimer
  deriving DecidableEq, Repr

/-- Error codes returned by the embedded route handlers. -/
inductive ApiError where
  | INVALID_INPUT
  | SESSION_NOT_FOUND
  | NOT_A_PLAYER
  | INVALID_STATE
  | INVALID_QUESTION
  | ALREADY_ANSWERED
  | UNSUPPORTED_QUESTION_TYPE
  | ACCESS_DENIED
  | NO_PLAYERS
  | NO_QUESTIONS
  | NO_MORE_QUESTIONS
  | INTERNAL_ERROR
  deriving DecidableEq, Repr

/-- JS `Math.round`: round half toward positive infinity. -/
def jsRound (x : Rat) : Int :=
  Rat.floor (x + 1 / 2)

/-- JS comparison `t / limit < c` on floats: when `limit = 0` the quotient
is `NaN` (for `t = 0`), `+Infinity` (for `t > 0`) or `-Infinity`
(for `t < 0`), so the comparison holds exactly when `t < 0`. -/
def ratioLt (t limit c : Rat) : Bool :=
  if limit = 0 then decide (t < 0) else decide (t / limit < c)

/-- Helper `calculateTextSimilarity` from `answer/route.ts` lines 329-344:
word-based similarity between two strings. -/
def calculateTextSimilarity (text1 text2 : String) : Rat :=
  if text1 = text2 then 1
  else
    let words1 := text1.toLower.splitOn " "
    let words2 := text2.toLower.splitOn " "
    let matchCount := (words1.filter (fun w => words2.contains w)).length
    (matchCount : Rat) / ((max words1.length words2.length : Nat) : Rat)

/-- Output of the per-question-type evaluation switch in the submit-answer
route (`responseType`, `finalAnswer`, `confidenceScore`, `accuracyScore`,
`isCorrect` after the `switch` at lines 147-223). -/
structure EvalOutcome where
  response_type : ResponseType
  final_answer : Option AnswerValue
  confidence_score : Rat
  accuracy_score : Rat
  is_correct : Bool
  deriving DecidableEq, Repr

/-- The per-question-type `switch` of the submit-answer route
(`answer/route.ts` lines 140-223), as a function of the current question,
the submitted `answer` and the submitted `response_data`.

The variables start as `confidenceScore = 1.0`, `accuracyScore = 0`,
`isCorrect = false` and each branch overwrites some of them.  The
`voice_command` branch evaluates
`(currentQuestion.correct_answer as string).toLowerCase()`, which throws a
`TypeError` when `correct_answer` is not a string; the outer `try/catch`
turns that into an `INTERNAL_ERROR` response, embedded here as the
`Except.error` case.  The `default` branch (`UNSUPPORTED_QUESTION_TYPE`)
guards non-enum tags and is unreachable over the closed
`QuestionType`. -/
def evaluateAnswer (q : Question) (answer : Option AnswerValue)
    (response_data : Option SensorData) : Except ApiError EvalOutcome :=
  match q.type with
  | .multiple_choice =>
      let isCorrect := decide (answer = q.correct_answer)
      .ok { response_type := .multiple_choice, final_answer := answer,
            confidence_score := 1, accuracy_score := if isCorrect then 100 else 0,
            is_correct := isCorrect }
  | .true_false =>
      let isCorrect := decide (answer = q.correct_answer)
      .ok { response_type := .true_false, final_answer := answer,
            confidence_score := 1, accuracy_score := if isCorrect then 100 else 0,
            is_correct := isCorrect }
  | .orientation_match =>
      match response_data.bind (fun d => d.gyroscope),
            q.target_data.bind (fun d => d.gyroscope) with
      | some actual, some target =>
          let alphaDiff := |target.alpha - actual.alpha|
          let betaDiff := |target.beta - actual.beta|
          let gammaDiff := |target.gamma - actual.gamma|
          let totalDiff := alphaDiff + betaDiff + gammaDiff
          let accuracyScore := max 0 (100 - totalDiff / 3)
          .ok { response_type := .gyroscope,
                final_answer := some (.str "orientation_data"),
                confidence_score := accuracyScore / 100,
                accuracy_score := accuracyScore,
                is_correct := decide (accuracyScore ≥ 70) }
      | _, _ =>
          .ok { response_type := .gyroscope,
                final_answer := some (.str "orientation_data"),
                confidence_score := 1, accuracy_score := 0, is_correct := false }
  | .voice_command =>
      match response_data.bind (fun d => d.voice) with
      | some v =>
          match q.correct_answer with
          | some (.str ca) =>
              let finalAnswer := v.text.toLower
              let targetText := ca.toLower
              let similarity := calculateTextSimilarity finalAnswer targetText
              .ok { response_type := .voice,
                    final_answer := some (.str finalAnswer),
                    confidence_score := v.confidence,
                    accuracy_score := similarity * 100,
                    is_correct := decide (similarity ≥ 7 / 10) }
          | _ => .error .INTERNAL_ERROR
      | none =>
          .ok { response_type := .voice, final_answer := none,
                confidence_score := 1, accuracy_score := 0, is_correct := false }
  | .gesture_recognition =>
      match response_data.bind (fun d => d.gesture) with
      | some g =>
          let isCorrect := decide (some (AnswerValue.str g.type) = q.correct_answer)
          .ok { response_type := .gesture,
                final_answer := some (.str g.type),
                confidence_score := g.confidence,
                accuracy_score := if isCorrect then g.confidence * 100 else 0,
                is_correct := isCorrect }
      | none =>
          .ok { response_type := .gesture, final_answer := none,
                confidence_score := 1, accuracy_score := 0, is_correct := false }
  | .multi_modal =>
      let accuracyScore : Rat := 75
      .ok { response_type := .multi_modal,
            final_answer := some (.str "multi_modal_response"),
            confidence_score := 4 / 5,
            accuracy_score := accuracyScore,
            is_correct := decide (accuracyScore ≥ 70) }

/-- Point computation of the submit-answer route (lines 225-239):
base points when correct plus the speed bonus tiers. -/
def computePoints (q : Question) (settings : GameSettings) (isCorrect : Bool)
    (time_to_respond : Rat) : Rat :=
  if isCorrect then
    q.points +
      (if settings.speed_bonus_enabled then
        if ratioLt time_to_respond q.time_limit (1 / 2) then
          ((jsRound (q.points * (1 / 2)) : Int) : Rat)
        else if ratioLt time_to_respond q.time_limit (3 / 4) then
          ((jsRound (q.points * (1 / 4)) : Int) : Rat)
        else 0
      else 0)
  else 0

/-- Mutation of the single object returned by `Array.prototype.find`:
apply `f` to the first element satisfying `p`, keep the rest. -/
def updateFirst (p : α → Bool) (f : α → α) : List α → List α
  | [] => []
  | a :: l => if p a then f a :: l else a :: updateFirst p f l

/-- The leaderboard sort `scores.sort((a, b) => b.score - a.score)`:
`Array.prototype.sort` is stable, so with this comparator it computes the
stable descending-by-score reordering, which is what insertion sort with
the total preorder `b.score ≤ a.score` produces. -/
def sortScores (l : List PlayerScore) : List PlayerScore :=
  l.insertionSort (fun a b => b.score ≤ a.score)

/-- The rank loop `scores.forEach((score, index) => score.rank = index + 1)`:
entry at 0-based position `i` receives rank `i + 1`. -/
def assignRanks : Nat → List PlayerScore → List PlayerScore
  | _, [] => []
  | i, s :: l => { s with rank := i + 1 } :: assignRanks (i + 1) l

/-- Request body of the submit-answer route (`SubmitAnswerRequest`). -/
structure SubmitAnswerRequest where
  session_id : String
  question_id : String
  answer : Option AnswerValue
  response_data : Option SensorData
  time_to_respond : Rat
  deriving DecidableEq, Repr

/-- Result of the submit-answer route: either a structured rejection (the
engine is returned unchanged, as every rejection in the route happens
before the first mutation) or the post-state engine together with the
recorded response and the awarded points. -/
inductive SubmitResult where
  | failure (e : ApiError) (engine : GameEngine)
  | success (engine : GameEngine) (response : PlayerResponse) (points_awarded : Rat)
  deriving DecidableEq, Repr

/-- The `playerResponse` record built at lines 242-257 of the
submit-answer route. -/
def mkPlayerResponse (userId : String) (req : SubmitAnswerRequest) (now : Nat)
    (ev : EvalOutcome) (pointsAwarded : Rat) : PlayerResponse :=
  { id := req.session_id ++ "_" ++ req.question_id ++ "_" ++ userId
      ++ "_" ++ toString now,
    session_id := req.session_id,
    user_id := userId,
    question_id := req.question_id,
    response_type := ev.response_type,
    answer_value := ev.final_answer,
    response_data := req.response_data,
    confidence_score := ev.confidence_score,
    accuracy_score := ev.accuracy_score,
    time_to_respond := req.time_to_respond,
    points_awarded := pointsAwarded,
    is_correct := ev.is_correct,
    submitted_at := now,
    created_at := now }

/-- The score-table update of the submit-answer route (lines 266-282):
fetch the submitter's `PlayerScore` or create a zeroed one, then add the
awarded points and refresh `updated_at` on that single entry. -/
def bumpScores (userId : String) (sessionId : String) (user : User)
    (pointsAwarded : Rat) (now : Nat) (scores : List PlayerScore) : List PlayerScore :=
  let scores0 :=
    if (scores.find? (fun s => s.user_id == userId)).isSome then scores
    else
      scores ++
        [{ user_id := userId, session_id := sessionId, user := user,
           score := 0, rank := 0, accuracy := 0, updated_at := now }]
  updateFirst (fun s => s.user_id == userId)
    (fun s => { s with score := s.score + pointsAwarded, updated_at := now })
    scores0

/-- The mutation phase of the submit-answer route (lines 225-312), reached
once every check has passed: compute points, record the response on the
current round, update the submitting player, bump the submitter's score,
re-sort the leaderboard, assign contiguous ranks and mirror them onto the
players. -/
def applySubmit (userId : String) (req : SubmitAnswerRequest) (now : Nat)
    (engine : GameEngine) (player : GamePlayer) (round : GameRound)
    (ev : EvalOutcome) : SubmitResult :=
  let pointsAwarded :=
    computePoints round.question engine.settings ev.is_correct req.time_to_respond
  let resp := mkPlayerResponse userId req now ev pointsAwarded
  let round1 := { round with responses := round.responses ++ [resp] }
  let players1 := updateFirst (fun p => p.user.id == userId)
    (fun p => { p with current_response := some resp,
                       total_score := p.total_score + pointsAwarded })
    engine.players
  let ranked := assignRanks 0
    (sortScores (bumpScores userId req.session_id player.user pointsAwarded now engine.scores))
  let players2 := players1.map (fun p =>
    match ranked.find? (fun s => s.user_id == p.user.id) with
    | some s => { p with rank := s.rank }
    | none => p)
  .success
    { engine with current_round := some round1, players := players2,
                  scores := ranked }
    resp pointsAwarded

/-- The POST handler of `frontend/src/app/api/game/answer/route.ts`.

Authentication is out of scope (the caller is `userId`); the store lookup
`mockGameSessions[session_id]` is modelled by passing the stored engine for
the requested session directly.  Checks appear in source order: input
validation, player membership, game status, current-question match,
duplicate response, evaluation, then the mutation phase `applySubmit`. -/
def submitAnswer (userId : String) (req : SubmitAnswerRequest) (now : Nat)
    (engine : GameEngine) : SubmitResult :=
  if req.session_id = "" ∨ req.question_id = "" then .failure .INVALID_INPUT engine
  else
    match engine.players.find? (fun p => p.user.id == userId) with
    | none => .failure .NOT_A_PLAYER engine
    | some player =>
      if ¬ (engine.status = .question ∨ engine.status = .countdown) then
        .failure .INVALID_STATE engine
      else
        match engine.current_round with
        | none => .failure .INVALID_QUESTION engine
        | some round =>
          if round.question.id ≠ req.question_id then .failure .INVALID_QUESTION engine
          else if (round.responses.find? (fun r => r.user_id == userId)).isSome then
            .failure .ALREADY_ANSWERED engine
          else
            match evaluateAnswer round.question req.answer req.response_data with
            | .error e => .failure e engine
            | .ok ev => applySubmit userId req now engine player round ev

/-- Result of a session-control route: either a structured rejection with
the unchanged engine, or the post-state engine. -/
inductive OpResult where
  | failure (e : ApiError) (engine : GameEngine)
  | ok (engine : GameEngine)
  deriving DecidableEq, Repr

/-- Post-state of a session-control call; on a rejection the state is the
unmodified input engine (every rejection happens before the first
mutation in the corresponding route). -/
def OpResult.engine : OpResult → GameEngine
  | .failure _ e => e
  | .ok e => e

/-- Post-state of a submit-answer call, failure or success. -/
def SubmitResult.engine : SubmitResult → GameEngine
  | .failure _ e => e
  | .success e _ _ => e

/-- Whether a submit-answer call was accepted. -/
def SubmitResult.isSuccess : SubmitResult → Bool
  | .failure _ _ => false
  | .success _ _ _ => true

/-- Points component of a submit-answer result, when accepted. -/
def SubmitResult.points : SubmitResult → Option Rat
  | .failure _ _ => none
  | .success _ _ p => some p

/-- Accuracy reported for the recorded response, when accepted. -/
def SubmitResult.accuracy : SubmitResult → Option Rat
  | .failure _ _ => none
  | .success _ r _ => some r.accuracy_score

/-- Observable data of a leaderboard entry apart from its rank: used to
state which fields of other participants' entries a submission may
touch. -/
def scoreData (s : PlayerScore) : String × Rat × Rat × Nat :=
  (s.user_id, s.score, s.accuracy, s.updated_at)

/-- The player-rank synchronisation loop of the advance-round and
end-session routes: each player takes the rank and score of its leaderboard
entry (players without an entry are untouched). -/
def syncPlayerRanksAndScores (scores : List PlayerScore)
    (players : List GamePlayer) : List GamePlayer :=
  players.map (fun p =>
    match scores.find? (fun s => s.user_id == p.user.id) with
    | some s => { p with rank := s.rank, total_score := s.score }
    | none => p)

/-- The final-ranking loop of the advance-round route's finish branch
(`score.rank = index + 1; score.updated_at = now` over the sorted list). -/
def assignFinalRanks (now : Nat) : Nat → List PlayerScore → List PlayerScore
  | _, [] => []
  | i, s :: l =>
      { s with rank := i + 1, updated_at := now } :: assignFinalRanks now (i + 1) l

/-- The POST handler of the start-game route (`game/session/[sessionId]/start`,
`src/unnamed/part_007`).  Authentication and the host check (`isHost = true`
in the source) are out of scope; the store lookup is modelled by passing
the stored engine for `sessionId` directly. -/
def startGame (sessionId : String) (now : Nat) (engine : GameEngine) : OpResult :=
  if engine.status ≠ .waiting then .failure .INVALID_STATE engine
  else if engine.players.length = 0 then .failure .NO_PLAYERS engine
  else
    match engine.questions with
    | [] => .failure .NO_QUESTIONS engine
    | firstQuestion :: _ =>
      let firstRound : GameRound :=
        { id := sessionId ++ "_round_1", session_id := sessionId,
          question := firstQuestion, status := .waiting,
          start_time := some now, end_time := none,
          time_remaining := engine.settings.time_per_question, responses := [] }
      .ok { engine with
        session := { engine.session with
          status := .countdown, current_round := 1,
          start_time := some now, updated_at := now },
        status := .countdown,
        current_round := some firstRound,
        timer := { total_time := engine.settings.time_per_question,
                   remaining_time := engine.settings.time_per_question,
                   is_running := false, start_time := some now, end_time := none },
        players := engine.players.map (fun p =>
          { p with total_score := 0, rank := 0, is_ready := false,
                   current_response := none }),
        scores := engine.players.map (fun p =>
          { user_id := p.user.id, session_id := sessionId, user := p.user,
            score := 0, rank := 0, accuracy := 0, updated_at := now }) }

/-- The POST handler of the advance-round route
(`game/session/[sessionId]/next`, `src/unnamed/part_006`).  When the next
round number exceeds `total_rounds` the game is finished and final ranks
are computed; otherwise the next round is created, `current_round` is
incremented and per-player accuracy is recomputed from the cumulative
score. -/
def advanceRound (sessionId : String) (now : Nat) (engine : GameEngine) : OpResult :=
  if ¬ (engine.status = .question ∨ engine.status = .results) then
    .failure .INVALID_STATE engine
  else
    let currentRound := engine.session.current_round
    let nextRoundNumber := currentRound + 1
    if nextRoundNumber > engine.session.total_rounds then
      let ranked := assignFinalRanks now 0 (sortScores engine.scores)
      .ok { engine with
        session := { engine.session with
          status := .finished, end_time := some now, updated_at := now },
        status := .finished,
        current_round := none,
        timer := { total_time := 0, remaining_time := 0, is_running := false,
                   start_time := none, end_time := some now },
        scores := ranked,
        players := syncPlayerRanksAndScores ranked engine.players }
    else
      match engine.questions.get? (nextRoundNumber - 1) with
      | none => .failure .NO_MORE_QUESTIONS engine
      | some nextQuestion =>
        let nextRound : GameRound :=
          { id := sessionId ++ "_round_" ++ toString nextRoundNumber,
            session_id := sessionId, question := nextQuestion, status := .waiting,
            start_time := some now, end_time := none,
            time_remaining := engine.settings.time_per_question, responses := [] }
        let playersReset := engine.players.map (fun p =>
          { p with current_response := none, is_ready := false })
        let totalQuestions := nextRoundNumber - 1
        let scoresNew := engine.scores.map (fun score =>
          match playersReset.find? (fun p => p.user.id == score.user_id) with
          | none => score
          | some player =>
              let correctAnswers : Rat :=
                ((engine.scores.find? (fun s => s.user_id == player.user.id)).map
                  (fun s => s.score)).getD 0
              { score with
                accuracy := if totalQuestions > 0 then
                    correctAnswers /
                      ((totalQuestions : Rat) * engine.settings.points_per_correct) * 100
                  else 0,
                updated_at := now })
        .ok { engine with
          session := { engine.session with
            current_round := nextRoundNumber, updated_at := now },
          status := .countdown,
          current_round := some nextRound,
          timer := { total_time := engine.settings.time_per_question,
                     remaining_time := engine.settings.time_per_question,
                     is_running := false, start_time := some now, end_time := none },
          players := playersReset,
          scores := scoresNew }

/-- The per-score loop of the end-session route: rank by sorted position,
accuracy from the responses of the (already cleared) current round, and a
fresh `updated_at`. -/
def endRankLoop (now : Nat) (totalQuestions : Nat) (round : Option GameRound) :
    Nat → List PlayerScore → List PlayerScore
  | _, [] => []
  | i, s :: l =>
      let playerResponses :=
        (round.map (fun r => r.responses.filter (fun resp => resp.user_id == s.user_id))).getD []
      let correctResponses := (playerResponses.filter (fun r => r.is_correct)).length
      { s with rank := i + 1,
               accuracy := if totalQuestions > 0 then
                   ((correctResponses : Rat) / (totalQuestions : Rat)) * 100
                 else 0,
               updated_at := now } :: endRankLoop now totalQuestions round (i + 1) l

/-- The POST handler of the end-session route
(`game/session/[sessionId]/end/route.ts`).  The route has no state guard
(`isHost = true` in the source); it clears `current_round` before the
accuracy loop reads it, so the loop always sees an empty response list. -/
def endGame (now : Nat) (engine : GameEngine) : OpResult :=
  let cleared := { engine with
    session := { engine.session with
      status := .finished, end_time := some now, updated_at := now },
    status := GameStatus.finished,
    current_round := (none : Option GameRound),
    timer := { total_time := 0, remaining_time := 0, is_running := false,
               start_time := none, end_time := some now } }
  let ranked := endRankLoop now cleared.session.current_round cleared.current_round 0
    (sortScores cleared.scores)
  OpResult.ok { cleared with
    scores := ranked,
    players := syncPlayerRanksAndScores ranked cleared.players }

/-- The POST handler of the session-creation route
(`game/session/[sessionId]/route.ts` lines 176-210).  `settings` is the
merged `{ ...defaultGameSettings, ...overrides }` object; `total_rounds`
is `settings.questions_per_game || 10` on the raw override, which equals
`10` exactly when the merged `questions_per_game` is `0` (the default `10`
is itself non-zero).  `questions` is the generator output
(`generateGameQuestionSet`). -/
def createEngine (sessionId roomId : String) (settings : GameSettings)
    (questions : List Question) (now : Nat) : GameEngine :=
  let totalRounds := if settings.questions_per_game = 0 then 10
    else settings.questions_per_game
  { session := { id := sessionId, room_id := roomId, status := .waiting,
                 current_round := 0, total_rounds := totalRounds,
                 start_time := none, end_time := none,
                 created_at := now, updated_at := now },
    current_round := none, questions := questions, players := [], scores := [],
    settings := settings, status := .waiting,
    timer := { total_time := 0, remaining_time := 0, is_running := false,
               start_time := none, end_time := none } }

/-- Modelled from the spec: the automatic `countdown → active(question)`
transition (section 4.1, "automatic after a fixed countdown interval
elapses; also starts the round timer").  The timer-driven transition code
is not under `src/`; only its target states appear in the route guards. -/
def tickBeginQuestion (engine : GameEngine) : GameEngine :=
  { engine with
    status := GameStatus.question,
    current_round := engine.current_round.map (fun r => { r with status := .active }),
    timer := { engine.timer with is_running := true } }

/-- Modelled from the spec: the `active → results` transition (section 4.1,
"triggered either by the round timer expiring or by a host advance
command; seals the round").  The timer-driven transition code is not under
`src/`. -/
def tickSealRound (engine : GameEngine) : GameEngine :=
  { engine with
    status := GameStatus.results,
    current_round := engine.current_round.map (fun r => { r with status := .finished }),
    timer := { engine.timer with is_running := false } }

/-- One session operation, as observed on the stored engine state: the
start, advance, end and submit handlers (their post-state, whether the call
was accepted or rejected), a participant joining the session (modelled from
the spec: the lobby-join code that appends to `players` is not under
`src/`), and the two spec-modelled timer transitions. -/
inductive Step : GameEngine → GameEngine → Prop where
  | start (sessionId : String) (now : Nat) (e : GameEngine) :
      Step e (startGame sessionId now e).engine
  | advance (sessionId : String) (now : Nat) (e : GameEngine) :
      Step e (advanceRound sessionId now e).engine
  | finish (now : Nat) (e : GameEngine) :
      Step e (endGame now e).engine
  | submit (userId : String) (req : SubmitAnswerRequest) (now : Nat) (e : GameEngine) :
      Step e (submitAnswer userId req now e).engine
  | join (p : GamePlayer) (e : GameEngine) :
      Step e { e with players := e.players ++ [p] }
  | beginQuestion (e : GameEngine) :
      e.status = .countdown → Step e (tickBeginQuestion e)
  | sealRound (e : GameEngine) :
      e.status = .question → Step e (tickSealRound e)

/-- States reachable from a freshly created session by session operations. -/
def ReachableFrom (init e : GameEngine) : Prop :=
  Relation.ReflTransGen Step init e

/-- Session-level invariant carried by every reachable engine state:
`current_round` never exceeds `total_rounds`, `total_rounds` is at least 1
(the session-creation route forces `questions_per_game || 10`), and a
session still in the lobby has `current_round = 0`. -/
def EngineInv (e : GameEngine) : Prop :=
  e.session.current_round ≤ e.session.total_rounds ∧
  1 ≤ e.session.total_rounds ∧
  (e.status = GameStatus.waiting → e.session.current_round = 0)

/-- A websocket client as the Go hub sees it (`Client` in the
websocket-service `main.go`).  Go pointer identity is modelled by the `id`
field; the buffered outbound channel `send` (capacity 256 in
`handleWebSocket`) is modelled by its queued contents `send` plus its
capacity `sendCap`. -/
structure HubClient where
  id : Nat
  userID : String
  username : String
  roomID : String
  send : List String
  sendCap : Nat
  deriving DecidableEq, Repr

/-- The Go `Hub`: the registered-client set `clients` (owner of each
client's state) and the per-room registry `rooms` mapping a room id to the
ids of its registered clients. -/
structure Hub where
  clients : List HubClient
  rooms : List (String × List Nat)
  deriving DecidableEq, Repr

/-- The loop body of `Hub.broadcastToRoom`: one `select` on a room member.
A buffered-channel send succeeds exactly when the queue has free capacity
(the slow consumer is not reading); otherwise the `default` branch closes
the channel and deletes the client from `h.clients` and from
`h.rooms[roomID]`.  A member id without a client record is a no-op (it
cannot occur for a well-formed hub, where room members are registered
clients). -/
def broadcastStep (roomID : String) (message : String) (h : Hub) (cid : Nat) : Hub :=
  match h.clients.find? (fun c => c.id == cid) with
  | none => h
  | some c =>
      if c.send.length < c.sendCap then
        let clients1 := updateFirst (fun cl => cl.id == cid)
          (fun cl => { cl with send := cl.send ++ [message] }) h.clients
        { h with clients := clients1 }
      else
        let clients1 := h.clients.filter (fun cl => cl.id != cid)
        let rooms1 := h.rooms.map (fun r =>
          if r.fst == roomID then (r.fst, r.snd.filter (fun i => i != cid)) else r)
        { clients := clients1, rooms := rooms1 }

/-- `Hub.broadcastToRoom` from the websocket-service `main.go` (lines
235-259): if the room is unknown the broadcast is a no-op; otherwise every
registered member is offered the message via a non-blocking channel send,
and members with a full queue are dropped.  The trailing Redis publish is
out of scope.  Go map iteration visits each member exactly once and each
iteration only ever removes the member being visited, so iterating a
snapshot member list is faithful. -/
def Hub.broadcastToRoom (h : Hub) (roomID : String) (message : String) : Hub :=
  match h.rooms.find? (fun r => r.fst == roomID) with
  | none => h
  | some room => room.snd.foldl (broadcastStep roomID message) h

/-! ## Concrete fixtures

Small concrete sessions used by witnesses and counterexamples.  The
settings fixture is `defaultGameSettings` from the session-creation
route. -/

/-- The `defaultGameSettings` constant of the session-creation route. -/
def defaultGameSettings : GameSettings :=
  { max_players := 20, questions_per_game := 10, time_per_question := 30,
    points_per_correct := 100, speed_bonus_enabled := true,
    multi_modal_enabled := true, show_correct_answer := true,
    allow_late_join := false }

/-- Fixture user. -/
def userA : User := { id := "uA", username := "alice" }

/-- Fixture user. -/
def userB : User := { id := "uB", username := "bob" }

/-- Fixture player for a user. -/
def mkPlayer (u : User) : GamePlayer :=
  { user := u, is_connected := true, is_ready := false, current_response := none,
    total_score := 0, rank := 0, joined_at := 0 }

/-- Fixture multiple-choice question worth `pts` points. -/
def mcQuestion (pts : Rat) : Question :=
  { id := "q1", session_id := "s1", type := .multiple_choice,
    correct_answer := some (.str "opt1"), target_data := none,
    time_limit := 30, points := pts, round_number := 1 }

/-- Fixture sensor bundle holding one gyroscope sample. -/
def gyroData (a b c : Rat) : SensorData :=
  { gyroscope := some { alpha := a, beta := b, gamma := c },
    touch := none, voice := none, gesture := none }

/-- Fixture orientation-match question with target orientation (0, 0, 0). -/
def orientQuestion : Question :=
  { id := "q1", session_id := "s1", type := .orientation_match,
    correct_answer := none, target_data := some (gyroData 0 0 0),
    time_limit := 30, points := 100, round_number := 1 }

/-- Fixture multi-modal question. -/
def mmQuestion : Question :=
  { id := "q1", session_id := "s1", type := .multi_modal,
    correct_answer := some (.str "opt1"), target_data := some (gyroData 0 0 0),
    time_limit := 30, points := 100, round_number := 1 }

/-- Fixture active round on a question. -/
def mkRound (q : Question) (resps : List PlayerResponse) : GameRound :=
  { id := "s1_round_1", session_id := "s1", question := q, status := .active,
    start_time := some 0, end_time := none, time_remaining := 30,
    responses := resps }

/-- Fixture engine in round 1 of 10 with the given status, question,
recorded responses, players and scores. -/
def mkEngine (st : GameStatus) (q : Question) (resps : List PlayerResponse)
    (players : List GamePlayer) (scores : List PlayerScore)
    (settings : GameSettings) : GameEngine :=
  { session := { id := "s1", room_id := "r1", status := st, current_round := 1,
                 total_rounds := 10, start_time := some 0, end_time := none,
                 created_at := 0, updated_at := 0 },
    current_round := some (mkRound q resps),
    questions := [q],
    players := players,
    scores := scores,
    settings := settings,
    status := st,
    timer := { total_time := 30, remaining_time := 30, is_running := true,
               start_time := some 0, end_time := none } }

/-- Fixture zeroed score entry for a user at clock `t`. -/
def mkScore (u : User) (points : Rat) (t : Nat) : PlayerScore :=
  { user_id := u.id, session_id := "s1", user := u, score := points, rank := 0,
    accuracy := 0, updated_at := t }

/-- Fixture submit-answer request with the right option of `mcQuestion`. -/
def mcRequest (t : Rat) : SubmitAnswerRequest :=
  { session_id := "s1", question_id := "q1", answer := some (.str "opt1"),
    response_data := none, time_to_respond := t }

/-- Fixture two-question session after round 1, in the results state, with
one player holding 150 points. -/
def advEngine : GameEngine :=
  { mkEngine .results (mcQuestion 100) [] [mkPlayer userA]
      [mkScore userA 150 3] defaultGameSettings with
    questions := [mcQuestion 100, mcQuestion 100] }

/-- Fixture session about to produce a points tie: the submitter uB (0
points, earlier list position) and uA (already 100 points, earlier
`updated_at`). -/
def engineTie : GameEngine :=
  mkEngine .question (mcQuestion 100) [] [mkPlayer userB]
    [mkScore userB 0 0, mkScore userA 100 1] defaultGameSettings

/-- Fixture session for a first accepted submission by uA. -/
def subEngine : GameEngine :=
  mkEngine .question (mcQuestion 100) [] [mkPlayer userA] [] defaultGameSettings

/-- Evaluation outcome of uA's correct multiple-choice submission. -/
def subEval : EvalOutcome :=
  { response_type := .multiple_choice, final_answer := some (.str "opt1"),
    confidence_score := 1, accuracy_score := 100, is_correct := true }

/-- The response recorded for uA's submission at clock 5 (no speed bonus:
25s of a 30s limit). -/
def subResp : PlayerResponse := mkPlayerResponse "uA" (mcRequest 25) 5 subEval 100

/-- uA's score entry after that submission. -/
def subScore : PlayerScore :=
  { user_id := "uA", session_id := "s1", user := userA, score := 100, rank := 1,
    accuracy := 0, updated_at := 5 }

/-- Fixture hub client with plenty of queue capacity (the code allocates
capacity 256). -/
def hubClient1 : HubClient :=
  { id := 1, userID := "uA", username := "alice", roomID := "r",
    send := [], sendCap := 256 }

/-- Fixture slow hub client whose one-slot queue is already full. -/
def hubClient2 : HubClient :=
  { id := 2, userID := "uB", username := "bob", roomID := "r",
    send := ["m1"], sendCap := 1 }

/-- Fixture hub with both clients registered in room "r". -/
def hubEx : Hub :=
  { clients := [hubClient1, hubClient2], rooms := [("r", [1, 2])] }

/-- The engine state after uA's submission on `subEngine`. -/
def subEngineAfter : GameEngine :=
  let round := { mkRound (mcQuestion 100) [] with responses := [subResp] }
  let playerAfter := { mkPlayer userA with
    current_response := some subResp, total_score := 100, rank := 1 }
  { subEngine with
    current_round := some round,
    players := [playerAfter],
    scores := [subScore] }

/-! ## C4: orientation-match evaluation -/

/-- C4.  For every orientation-match question with a stored target
orientation and every submission carrying gyroscope data, the evaluator
returns `accuracy = max 0 (100 - (|da| + |db| + |dg|) / 3)`,
`is_correct = (accuracy >= 70)` and `confidence = accuracy / 100`. -/
theorem orientation_eval_formula (q : Question) (ans : Option AnswerValue)
    (data : SensorData) (g tg : GyroscopeData) (td : SensorData)
    (hq : q.type = .orientation_match)
    (hdata : data.gyroscope = some g)
    (htd : q.target_data = some td) (htg : td.gyroscope = some tg) :
    evaluateAnswer q ans (some data) =
      .ok { response_type := .gyroscope,
            final_answer := some (.str "orientation_data"),
            confidence_score :=
              (max 0 (100 - (|tg.alpha - g.alpha| + |tg.beta - g.beta| +
                |tg.gamma - g.gamma|) / 3)) / 100,
            accuracy_score :=
              max 0 (100 - (|tg.alpha - g.alpha| + |tg.beta - g.beta| +
                |tg.gamma - g.gamma|) / 3),
            is_correct :=
              decide ((max 0 (100 - (|tg.alpha - g.alpha| + |tg.beta - g.beta| +
                |tg.gamma - g.gamma|) / 3)) ≥ 70) } := by
  simp only [evaluateAnswer, hq, htd, Option.some_bind', hdata, htg]

/-- C4 witness: the two spec examples.  Target (0,0,0) with submission
(0,0,0) yields accuracy 100 and a correct answer; submission (0,60,60)
yields accuracy 60 and an incorrect answer. -/
theorem orientation_eval_formula_witness :
    evaluateAnswer orientQuestion none (some (gyroData 0 0 0)) =
      .ok { response_type := .gyroscope,
            final_answer := some (.str "orientation_data"),
            confidence_score := 1, accuracy_score := 100, is_correct := true } ∧
    evaluateAnswer orientQuestion none (some (gyroData 0 60 60)) =
      .ok { response_type := .gyroscope,
            final_answer := some (.str "orientation_data"),
            confidence_score := 3 / 5, accuracy_score := 60, is_correct := false } :=
  ⟨(orientation_eval_formula orientQuestion none (gyroData 0 0 0)
      { alpha := 0, beta := 0, gamma := 0 } { alpha := 0, beta := 0, gamma := 0 }
      (gyroData 0 0 0) rfl rfl rfl rfl).trans (by norm_num),
   (orientation_eval_formula orientQuestion none (gyroData 0 60 60)
      { alpha := 0, beta := 60, gamma := 60 } { alpha := 0, beta := 0, gamma := 0 }
      (gyroData 0 0 0) rfl rfl rfl rfl).trans (by norm_num)⟩

/-! ## C8: multi-modal evaluation -/

/-- C8 counterexample: two submissions for a multi-modal question with
different payloads (one answer plus a perfectly matching orientation, no
answer plus a far-off orientation) receive identical evaluation results,
with accuracy fixed at 75 — the result does not depend on the submitted
modality payloads and is not a weighted average of per-modality scores. -/
theorem multi_modal_payload_independent :
    evaluateAnswer mmQuestion (some (.str "opt1")) (some (gyroData 0 0 0)) =
      evaluateAnswer mmQuestion none (some (gyroData 90 90 90)) ∧
    evaluateAnswer mmQuestion (some (.str "opt1")) (some (gyroData 0 0 0)) =
      .ok { response_type := .multi_modal,
            final_answer := some (.str "multi_modal_response"),
            confidence_score := 4 / 5, accuracy_score := 75,
            is_correct := true } := by
  constructor <;> norm_num [evaluateAnswer, mmQuestion]

/-- C8 amended: the multi-modal branch of the evaluator is a fixed stub —
every multi-modal submission is scored with accuracy 75, confidence 0.8
and `is_correct = true`, independently of the submitted payloads (the
route carries a placeholder comment instead of combination logic). -/
theorem multi_modal_eval_constant (q : Question) (ans : Option AnswerValue)
    (data : Option SensorData) (hq : q.type = .multi_modal) :
    evaluateAnswer q ans data =
      .ok { response_type := .multi_modal,
            final_answer := some (.str "multi_modal_response"),
            confidence_score := 4 / 5, accuracy_score := 75,
            is_correct := true } := by
  simp only [evaluateAnswer, hq]
  norm_num

/-- C8 amended witness: the stub value at a concrete multi-modal input. -/
theorem multi_modal_eval_constant_witness :
    evaluateAnswer mmQuestion none none =
      .ok { response_type := .multi_modal,
            final_answer := some (.str "multi_modal_response"),
            confidence_score := 4 / 5, accuracy_score := 75,
            is_correct := true } :=
  multi_modal_eval_constant mmQuestion none none rfl

/-! ## C5: speed-bonus scoring -/

/-- Evaluation rule for `jsRound` at concrete arguments: `jsRound x` is the
integer `n` with `n ≤ x + 1/2 < n + 1`. -/
theorem jsRound_eq_of (x : Rat) (n : Int) (h1 : (n : Rat) ≤ x + 1 / 2)
    (h2 : x + 1 / 2 < (n : Rat) + 1) : jsRound x = n := by
  have : jsRound x = ⌊x + 1 / 2⌋ := rfl
  rw [this, Int.floor_eq_iff]
  exact ⟨h1, by exact_mod_cast h2⟩

/-- C5 counterexample: for an accepted correct answer on a 150-point
question with `time_limit = 30` and `time_to_respond = 20` (ratio 2/3, the
25% tier), the code awards `150 + round(37.5) = 188` points, not the exact
`150 + 150 x 1/4 = 187.5` of the claim's formula. -/
theorem speed_bonus_rounding_counterexample :
    (submitAnswer "uA" (mcRequest 20) 5
        (mkEngine .question (mcQuestion 150) [] [mkPlayer userA] []
          defaultGameSettings)).points = some 188 ∧
    (188 : Rat) ≠ 150 + 150 * (1 / 4) ∧
    defaultGameSettings.speed_bonus_enabled = true ∧
    ((20 : Rat) / 30 < 3 / 4 ∧ ¬ ((20 : Rat) / 30 < 1 / 2)) := by
  have hr : jsRound ((75 : Rat) / 2) = 38 :=
    jsRound_eq_of _ _ (by norm_num) (by norm_num)
  refine ⟨?_, by norm_num, rfl, by norm_num, by norm_num⟩
  norm_num [submitAnswer, mkEngine, mkPlayer, userA, mcRequest, mcQuestion,
    mkRound, defaultGameSettings, evaluateAnswer, applySubmit, computePoints,
    ratioLt, hr]
  rfl

/-- C5 amended: with the speed bonus enabled and a positive time limit,
points awarded are `question.points` plus `Math.round(question.points/2)`
when `time_to_respond < 0.5 x time_limit`, else plus
`Math.round(question.points/4)` when `time_to_respond < 0.75 x time_limit`,
else no bonus, and an incorrect answer always awards 0. -/
theorem scoring_tiers (q : Question) (settings : GameSettings) (isCorrect : Bool)
    (t : Rat) (henabled : settings.speed_bonus_enabled = true)
    (hlim : 0 < q.time_limit) :
    computePoints q settings isCorrect t =
      if isCorrect then
        q.points +
          (if t < 1 / 2 * q.time_limit then ((jsRound (q.points * (1 / 2)) : Int) : Rat)
           else if t < 3 / 4 * q.time_limit then ((jsRound (q.points * (1 / 4)) : Int) : Rat)
           else 0)
      else 0 := by
  have hne : q.time_limit ≠ 0 := ne_of_gt hlim
  simp only [computePoints, henabled, ratioLt, hne, if_false, if_true,
    decide_eq_true_eq, div_lt_iff hlim]

/-- C5 amended witness: the spec examples with points 100 and time limit
30 — response at 10s awards 150, at 20s awards 125, incorrect awards 0. -/
theorem scoring_tiers_witness :
    computePoints (mcQuestion 100) defaultGameSettings true 10 = 150 ∧
    computePoints (mcQuestion 100) defaultGameSettings true 20 = 125 ∧
    computePoints (mcQuestion 100) defaultGameSettings false 20 = 0 := by
  have h50 : jsRound ((50 : Rat)) = 50 :=
    jsRound_eq_of _ _ (by norm_num) (by norm_num)
  have h25 : jsRound ((25 : Rat)) = 25 :=
    jsRound_eq_of _ _ (by norm_num) (by norm_num)
  refine ⟨?_, ?_, ?_⟩ <;>
    rw [scoring_tiers _ _ _ _ rfl (by norm_num [mcQuestion])] <;>
    norm_num [mcQuestion, h50, h25]

/-! ## C2: submissions outside the active-question state -/

/-- C2 counterexample: a submission made while the session status is
`countdown` — a state other than the active-question state — is accepted,
not rejected with `INVALID_STATE`. -/
theorem submit_accepted_in_countdown :
    (submitAnswer "uA" (mcRequest 25) 5
        (mkEngine .countdown (mcQuestion 100) [] [mkPlayer userA] []
          defaultGameSettings)).isSuccess = true ∧
    (mkEngine .countdown (mcQuestion 100) [] [mkPlayer userA] []
        defaultGameSettings).status ≠ GameStatus.question := by
  refine ⟨?_, by simp [mkEngine]⟩
  norm_num [submitAnswer, mkEngine, mkPlayer, userA, mcRequest, mcQuestion,
    mkRound, defaultGameSettings, evaluateAnswer, applySubmit, computePoints,
    ratioLt]
  rfl

/-- C2 amended: a Response is accepted only while the session status is
`question` or `countdown`; for a valid request from a session player, in
every other status the call is rejected with `INVALID_STATE` and the state
is unchanged. -/
theorem submit_rejected_outside_active_states
    (userId : String) (req : SubmitAnswerRequest) (now : Nat) (engine : GameEngine)
    (hsid : req.session_id ≠ "") (hqid : req.question_id ≠ "")
    (hplayer : (engine.players.find? (fun p => p.user.id == userId)).isSome)
    (hq : engine.status ≠ .question) (hc : engine.status ≠ .countdown) :
    submitAnswer userId req now engine = .failure .INVALID_STATE engine := by
  obtain ⟨player, hp⟩ := Option.isSome_iff_exists.mp hplayer
  simp only [submitAnswer, hp]
  rw [if_neg (not_or.mpr ⟨hsid, hqid⟩), if_pos (not_or.mpr ⟨hq, hc⟩)]

/-- C2 amended witness: a concrete session in `results` status rejects a
valid submission with `INVALID_STATE` and leaves the engine unchanged. -/
theorem submit_rejected_outside_active_states_witness :
    submitAnswer "uA" (mcRequest 10) 5
        (mkEngine .results (mcQuestion 100) [] [mkPlayer userA] []
          defaultGameSettings) =
      .failure .INVALID_STATE
        (mkEngine .results (mcQuestion 100) [] [mkPlayer userA] []
          defaultGameSettings) :=
  submit_rejected_outside_active_states _ _ _ _
    (by decide) (by decide)
    (by simp [mkEngine, mkPlayer, userA])
    (by simp [mkEngine]) (by simp [mkEngine])

/-! ## C1: duplicate submissions -/

/-- C1.  A second submit-answer call for the current round by a
participant whose Response is already recorded — made while the round is
still accepting answers and naming the round's question — is rejected with
the duplicate-response error `ALREADY_ANSWERED`, and the engine state is
returned unchanged: no Response is appended and no Score entry changes. -/
theorem duplicate_submit_rejected
    (userId : String) (req : SubmitAnswerRequest) (now : Nat) (engine : GameEngine)
    (round : GameRound)
    (hsid : req.session_id ≠ "") (hqid : req.question_id ≠ "")
    (hplayer : (engine.players.find? (fun p => p.user.id == userId)).isSome)
    (hstatus : engine.status = .question ∨ engine.status = .countdown)
    (hround : engine.current_round = some round)
    (hmatch : round.question.id = req.question_id)
    (hdup : (round.responses.find? (fun r => r.user_id == userId)).isSome = true) :
    submitAnswer userId req now engine = .failure .ALREADY_ANSWERED engine := by
  obtain ⟨player, hp⟩ := Option.isSome_iff_exists.mp hplayer
  simp only [submitAnswer, hp, hround]
  rw [if_neg (not_or.mpr ⟨hsid, hqid⟩), if_neg (not_not_intro hstatus),
    if_neg (not_not_intro hmatch), if_pos hdup]

/-- C1 witness: a concrete duplicate submission (the round already holds a
Response by the same user) yields `ALREADY_ANSWERED` with the engine
unchanged. -/
theorem duplicate_submit_rejected_witness :
    submitAnswer "uA" (mcRequest 10) 5
        (mkEngine .question (mcQuestion 100)
          [mkPlayerResponse "uA" (mcRequest 10) 3
            { response_type := .multiple_choice,
              final_answer := some (.str "opt1"), confidence_score := 1,
              accuracy_score := 100, is_correct := true } 100]
          [mkPlayer userA] [mkScore userA 100 3] defaultGameSettings) =
      .failure .ALREADY_ANSWERED
        (mkEngine .question (mcQuestion 100)
          [mkPlayerResponse "uA" (mcRequest 10) 3
            { response_type := .multiple_choice,
              final_answer := some (.str "opt1"), confidence_score := 1,
              accuracy_score := 100, is_correct := true } 100]
          [mkPlayer userA] [mkScore userA 100 3] defaultGameSettings) :=
  duplicate_submit_rejected _ _ _ _ (mkRound (mcQuestion 100)
      [mkPlayerResponse "uA" (mcRequest 10) 3
        { response_type := .multiple_choice,
          final_answer := some (.str "opt1"), confidence_score := 1,
          accuracy_score := 100, is_correct := true } 100])
    (by decide) (by decide)
    (by simp [mkEngine, mkPlayer, userA])
    (Or.inl (by simp [mkEngine]))
    (by simp [mkEngine])
    (by simp [mkRound, mcQuestion, mcRequest])
    (by simp [mkRound, mkPlayerResponse, mcRequest])

/-! ## Shared lemmas about the leaderboard combinators -/

theorem mem_updateFirst {α : Type _} {p : α → Bool} {f : α → α} {s : α} :
    ∀ l : List α, s ∈ updateFirst p f l → s ∈ l ∨ ∃ t ∈ l, p t = true ∧ s = f t
  | [], hs => by simpa [updateFirst] using hs
  | a :: l, hs => by
    by_cases hpa : p a = true
    · simp only [updateFirst, if_pos hpa] at hs
      rcases List.mem_cons.mp hs with hs | hs
      · exact Or.inr ⟨a, List.mem_cons_self a l, hpa, hs⟩
      · exact Or.inl (List.mem_cons_of_mem a hs)
    · simp only [updateFirst, if_neg hpa] at hs
      rcases List.mem_cons.mp hs with hs | hs
      · exact Or.inl (hs ▸ List.mem_cons_self a l)
      · rcases mem_updateFirst l hs with h | ⟨t, ht, hpt, hft⟩
        · exact Or.inl (List.mem_cons_of_mem a h)
        · exact Or.inr ⟨t, List.mem_cons_of_mem a ht, hpt, hft⟩

theorem map_scoreData_assignRanks :
    ∀ (n : Nat) (l : List PlayerScore),
      (assignRanks n l).map scoreData = l.map scoreData := by
  intro n l
  induction l generalizing n with
  | nil => rfl
  | cons a l ih => simp [assignRanks, scoreData, ih]

theorem map_rank_assignRanks :
    ∀ (n : Nat) (l : List PlayerScore),
      (assignRanks n l).map (fun s => s.rank) = List.range' (n + 1) l.length := by
  intro n l
  induction l generalizing n with
  | nil => rfl
  | cons a l ih => simp [assignRanks, ih, List.range'_succ]

theorem sortScores_perm (l : List PlayerScore) : List.Perm (sortScores l) l :=
  List.perm_insertionSort _ l

theorem mem_of_mem_assignRanks {s : PlayerScore} {n : Nat} {l : List PlayerScore}
    (hs : s ∈ assignRanks n l) :
    ∃ t ∈ l, scoreData t = scoreData s := by
  have : scoreData s ∈ (assignRanks n l).map scoreData := List.mem_map_of_mem _ hs
  rw [map_scoreData_assignRanks] at this
  rcases List.mem_map.mp this with ⟨t, ht, hts⟩
  exact ⟨t, ht, hts⟩

theorem mem_of_mem_bumpScores {s : PlayerScore} {userId sessionId : String}
    {user : User} {pts : Rat} {now : Nat} {scores : List PlayerScore}
    (hs : s ∈ bumpScores userId sessionId user pts now scores) :
    (∃ t ∈ scores, s.user_id = t.user_id ∧ s.accuracy = t.accuracy) ∨
      (s.user_id = userId ∧ s.accuracy = 0) := by
  simp only [bumpScores] at hs
  rcases mem_updateFirst _ hs with hmem | ⟨t, ht, hpt, hft⟩
  · split at hmem
    · exact Or.inl ⟨s, hmem, rfl, rfl⟩
    · rcases List.mem_append.mp hmem with hmem | hmem
      · exact Or.inl ⟨s, hmem, rfl, rfl⟩
      · simp only [List.mem_singleton] at hmem
        subst hmem
        exact Or.inr ⟨rfl, rfl⟩
  · subst hft
    split at ht
    · exact Or.inl ⟨t, ht, rfl, rfl⟩
    · rcases List.mem_append.mp ht with hmem | hmem
      · exact Or.inl ⟨t, hmem, rfl, rfl⟩
      · simp only [List.mem_singleton] at hmem
        subst hmem
        exact Or.inr ⟨by simpa using hpt, rfl⟩

theorem find?_eq_of_nodup_keys {key : PlayerScore → String} {l : List PlayerScore}
    {s : PlayerScore} (hnd : (l.map key).Nodup) (hs : s ∈ l) :
    l.find? (fun x => key x == key s) = some s := by
  induction l with
  | nil => cases hs
  | cons a l ih =>
    rcases List.mem_cons.mp hs with rfl | hs
    · simp [List.find?]
    · have hka : key a ≠ key s := by
        intro hk
        have : key s ∈ l.map key := List.mem_map_of_mem key hs
        rw [← hk] at this
        exact (List.nodup_cons.mp hnd).1 this
      have : (key a == key s) = false := beq_false_of_ne hka
      simp only [List.find?, this]
      exact ih (List.nodup_cons.mp hnd).2 hs

/-- Inversion of an accepted submit-answer call: every check of the route
passed and the result is the mutation phase `applySubmit`. -/
theorem submitAnswer_success_inversion
    {userId : String} {req : SubmitAnswerRequest} {now : Nat}
    {engine e' : GameEngine} {resp : PlayerResponse} {pts : Rat}
    (h : submitAnswer userId req now engine = .success e' resp pts) :
    ∃ player round ev,
      engine.players.find? (fun p => p.user.id == userId) = some player ∧
      engine.current_round = some round ∧
      evaluateAnswer round.question req.answer req.response_data = .ok ev ∧
      applySubmit userId req now engine player round ev = .success e' resp pts := by
  by_cases h1 : (req.session_id = "" ∨ req.question_id = "")
  · simp [submitAnswer, h1] at h
  · cases hfind : engine.players.find? (fun p => p.user.id == userId) with
    | none => simp [submitAnswer, h1, hfind] at h
    | some player =>
      by_cases h2 : ¬ (engine.status = .question ∨ engine.status = .countdown)
      · simp [submitAnswer, h1, hfind, h2] at h
      · cases hround : engine.current_round with
        | none => simp [submitAnswer, h1, hfind, h2, hround] at h
        | some round =>
          by_cases h3 : round.question.id ≠ req.question_id
          · simp [submitAnswer, h1, hfind, h2, hround, h3] at h
          · by_cases h4 : (round.responses.find? (fun r => r.user_id == userId)).isSome = true
            · simp [submitAnswer, h1, hfind, h2, hround, h3, h4] at h
            · cases heval : evaluateAnswer round.question req.answer req.response_data with
              | error e =>
                  simp [submitAnswer, h1, hfind, h2, hround, h3, h4, heval] at h
              | ok ev =>
                  refine ⟨player, round, ev, rfl, rfl, heval, ?_⟩
                  simpa [submitAnswer, h1, hfind, h2, hround, h3, h4, heval] using h

/-- Components of the mutation phase: an accepted call appends exactly the
returned response to the current round and replaces the scores by the
re-ranked sort of the bumped table; points, response and submitter user
are as computed. -/
theorem applySubmit_components
    {userId : String} {req : SubmitAnswerRequest} {now : Nat}
    {engine e' : GameEngine} {resp : PlayerResponse} {pts : Rat}
    {player : GamePlayer} {round : GameRound} {ev : EvalOutcome}
    (h : applySubmit userId req now engine player round ev = .success e' resp pts) :
    pts = computePoints round.question engine.settings ev.is_correct req.time_to_respond ∧
    resp = mkPlayerResponse userId req now ev pts ∧
    e'.current_round = some { round with responses := round.responses ++ [resp] } ∧
    e'.scores = assignRanks 0
      (sortScores (bumpScores userId req.session_id player.user pts now engine.scores)) ∧
    e'.session = engine.session ∧
    e'.status = engine.status := by
  simp only [applySubmit, SubmitResult.success.injEq] at h
  obtain ⟨he, hr, hp⟩ := h
  subst hp
  subst hr
  subst he
  exact ⟨rfl, rfl, rfl, rfl, rfl, rfl⟩

/-! ## C7: running accuracy -/

/-- C7 counterexample: a first-round correct submission leaves the
submitter's accuracy at 0, although one correct Response out of one round
played would give 100 under the claimed recomputation. -/
theorem accuracy_not_recomputed_on_submit :
    (submitAnswer "uA" (mcRequest 25) 5
        (mkEngine .question (mcQuestion 100) [] [mkPlayer userA]
          [mkScore userA 0 0] defaultGameSettings)).accuracy = some 100 ∧
    ((submitAnswer "uA" (mcRequest 25) 5
        (mkEngine .question (mcQuestion 100) [] [mkPlayer userA]
          [mkScore userA 0 0] defaultGameSettings)).engine.scores.map
      (fun s => (s.user_id, s.accuracy))) = [("uA", 0)] ∧
    (0 : Rat) ≠ 1 / 1 * 100 := by
  refine ⟨?_, ?_, by norm_num⟩ <;>
    · norm_num [submitAnswer, mkEngine, mkPlayer, userA, mcRequest, mcQuestion,
        mkRound, defaultGameSettings, evaluateAnswer, applySubmit, computePoints,
        ratioLt, mkScore, bumpScores, updateFirst, sortScores,
        List.insertionSort, List.orderedInsert, assignRanks, mkPlayerResponse]
      rfl

/-- C7 amended: an accepted submission never changes any stored accuracy
(every post-state entry keeps the accuracy of a pre-state entry with the
same user, or is the submitter's freshly created entry with accuracy 0);
accuracy is instead recomputed by the advance-round handler, which sets
each scored player's accuracy to
`score / (rounds_played x points_per_correct) x 100` (0 when no round was
played yet) — a cumulative-score proxy, not a correct-response count. -/
theorem accuracy_recomputed_on_advance_not_submit :
    (∀ (userId : String) (req : SubmitAnswerRequest) (now : Nat)
        (engine e' : GameEngine) (resp : PlayerResponse) (pts : Rat),
      submitAnswer userId req now engine = .success e' resp pts →
      ∀ s' ∈ e'.scores,
        (∃ s ∈ engine.scores, s'.user_id = s.user_id ∧ s'.accuracy = s.accuracy) ∨
          (s'.user_id = userId ∧ s'.accuracy = 0)) ∧
    (∀ (sessionId : String) (now : Nat) (engine e' : GameEngine),
      advanceRound sessionId now engine = .ok e' →
      engine.session.current_round + 1 ≤ engine.session.total_rounds →
      (engine.scores.map (fun s => s.user_id)).Nodup →
      ∀ s ∈ engine.scores, (∃ p ∈ engine.players, p.user.id = s.user_id) →
        ∃ s' ∈ e'.scores, s'.user_id = s.user_id ∧ s'.updated_at = now ∧
          s'.accuracy = (if 0 < engine.session.current_round then
            s.score / ((engine.session.current_round : Rat) *
              engine.settings.points_per_correct) * 100
            else 0)) := by
  constructor
  · intro userId req now engine e' resp pts h s' hs'
    obtain ⟨player, round, ev, hfind, hround, heval, happly⟩ :=
      submitAnswer_success_inversion h
    obtain ⟨hpts, hresp, hcr, hscores, hsess, hstat⟩ := applySubmit_components happly
    rw [hscores] at hs'
    obtain ⟨t, ht, htd⟩ := mem_of_mem_assignRanks hs'
    have htd' : t.user_id = s'.user_id ∧ t.accuracy = s'.accuracy := by
      simp only [scoreData, Prod.mk.injEq] at htd
      exact ⟨htd.1, htd.2.2.1⟩
    have ht' : t ∈ bumpScores userId req.session_id player.user pts now engine.scores :=
      (sortScores_perm _).mem_iff.mp ht
    rcases mem_of_mem_bumpScores ht' with ⟨u, hu, hu1, hu2⟩ | ⟨h1, h2⟩
    · exact Or.inl ⟨u, hu, htd'.1 ▸ hu1, htd'.2 ▸ hu2⟩
    · exact Or.inr ⟨htd'.1 ▸ h1, htd'.2 ▸ h2⟩
  · intro sessionId now engine e' h hnext hnd s hs hps
    simp only [advanceRound] at h
    by_cases hst : ¬ (engine.status = .question ∨ engine.status = .results)
    · rw [if_pos hst] at h
      exact absurd h (by simp)
    · rw [if_neg hst] at h
      have hgt : ¬ (engine.session.current_round + 1 > engine.session.total_rounds) := by
        omega
      rw [if_neg hgt] at h
      cases hq : engine.questions.get? (engine.session.current_round + 1 - 1) with
      | none => rw [hq] at h; exact absurd h (by simp)
      | some nq =>
        rw [hq] at h
        simp only [OpResult.ok.injEq] at h
        subst h
        obtain ⟨p, hp, hpid⟩ := hps
        have hpm : ((engine.players.map (fun pl =>
            { pl with current_response := none, is_ready := false })).find?
              (fun pl => pl.user.id == s.user_id)).isSome = true := by
          apply List.find?_isSome.mpr
          refine ⟨{ p with current_response := none, is_ready := false }, ?_, ?_⟩
          · exact List.mem_map_of_mem _ hp
          · simpa using hpid
        obtain ⟨p', hp'⟩ := Option.isSome_iff_exists.mp hpm
        have hp'id : p'.user.id = s.user_id := by
          have := List.find?_some hp'
          simpa using this
        have hfs : engine.scores.find? (fun x => x.user_id == p'.user.id) = some s := by
          rw [hp'id]
          exact find?_eq_of_nodup_keys hnd hs
        refine ⟨_, List.mem_map_of_mem _ hs, ?_⟩
        simp [hp', hfs]

/-- C7 amended witness: advancing a two-question session past round 1,
where the only player holds 150 points (speed bonus included), sets that
player's accuracy to `150 / (1 x 100) x 100 = 150` — the score-based
proxy, which can exceed 100. -/
theorem accuracy_recomputed_on_advance_not_submit_witness :
    ∃ s' ∈ (advanceRound "s1" 7 advEngine).engine.scores,
      s'.user_id = (mkScore userA 150 3).user_id ∧ s'.updated_at = 7 ∧
        s'.accuracy = (if 0 < advEngine.session.current_round then
          (mkScore userA 150 3).score / ((advEngine.session.current_round : Rat) *
            advEngine.settings.points_per_correct) * 100
          else 0) :=
  accuracy_recomputed_on_advance_not_submit.2 "s1" 7 advEngine
    (advanceRound "s1" 7 advEngine).engine
    (by norm_num [advanceRound, advEngine, mkEngine, mkScore, mkPlayer, userA,
        mcQuestion, mkRound, defaultGameSettings, OpResult.engine,
        syncPlayerRanksAndScores, assignFinalRanks, sortScores,
        List.insertionSort, List.orderedInsert])
    (by norm_num [advEngine, mkEngine])
    (by simp [advEngine, mkEngine, mkScore, userA])
    (mkScore userA 150 3) (by simp [advEngine, mkEngine])
    ⟨mkPlayer userA, by simp [advEngine, mkEngine], rfl⟩

/-! ## C6: leaderboard ordering and tie-breaks -/

instance : IsTotal PlayerScore (fun a b => b.score ≤ a.score) :=
  ⟨fun a b => le_total b.score a.score⟩

instance : IsTrans PlayerScore (fun a b => b.score ≤ a.score) :=
  ⟨fun _ _ _ hab hbc => le_trans hbc hab⟩

theorem sortScores_sorted (l : List PlayerScore) :
    List.Sorted (fun a b => b.score ≤ a.score) (sortScores l) :=
  List.sorted_insertionSort _ l

theorem map_score_assignRanks :
    ∀ (n : Nat) (l : List PlayerScore),
      (assignRanks n l).map (fun s => s.score) = l.map (fun s => s.score) := by
  intro n l
  induction l generalizing n with
  | nil => rfl
  | cons a l ih => simp [assignRanks, ih]

theorem length_assignRanks :
    ∀ (n : Nat) (l : List PlayerScore), (assignRanks n l).length = l.length := by
  intro n l
  induction l generalizing n with
  | nil => rfl
  | cons a l ih => simp [assignRanks, ih]

theorem filter_score_orderedInsert (q : Rat) (a : PlayerScore) (l : List PlayerScore) :
    (l.orderedInsert (fun x y => y.score ≤ x.score) a).filter (fun s => s.score == q) =
      if a.score == q then a :: l.filter (fun s => s.score == q)
      else l.filter (fun s => s.score == q) := by
  induction l with
  | nil =>
    cases hab : (a.score == q) <;>
      simp [List.orderedInsert, List.filter_cons, hab]
  | cons b l ih =>
    simp only [List.orderedInsert]
    by_cases hr : b.score ≤ a.score
    · rw [if_pos hr]
      cases hab : (a.score == q) <;> simp [List.filter_cons, hab]
    · rw [if_neg hr]
      have hb : a.score < b.score := lt_of_not_le hr
      cases hab : (a.score == q) with
      | false =>
          cases hbq : (b.score == q) <;>
            simp [List.filter_cons, hbq, ih, hab]
      | true =>
          have haq : a.score = q := by simpa using hab
          have hbq : (b.score == q) = false := by
            apply beq_false_of_ne
            intro hq
            rw [hq, ← haq] at hb
            exact lt_irrefl _ hb
          simp [List.filter_cons, hbq, ih, hab]

theorem filter_score_sortScores (q : Rat) (l : List PlayerScore) :
    (sortScores l).filter (fun s => s.score == q) =
      l.filter (fun s => s.score == q) := by
  induction l with
  | nil => rfl
  | cons a l ih =>
    have hdef : sortScores (a :: l) =
        (sortScores l).orderedInsert (fun x y => y.score ≤ x.score) a := rfl
    rw [hdef, filter_score_orderedInsert, ih]
    cases hab : (a.score == q) <;> simp [List.filter_cons, hab]

theorem filter_score_assignRanks_data (q : Rat) :
    ∀ (n : Nat) (l : List PlayerScore),
      ((assignRanks n l).filter (fun s => s.score == q)).map scoreData =
        (l.filter (fun s => s.score == q)).map scoreData := by
  intro n l
  induction l generalizing n with
  | nil => rfl
  | cons a l ih =>
    cases hab : (a.score == q) <;>
      simp [assignRanks, List.filter_cons, hab, scoreData, ih]

/-- C6 counterexample: uB submits a correct answer and ties uA at 100
points.  uA's `updated_at` (1) is earlier than uB's (5), yet uA receives
rank 2 and uB rank 1: the recomputation sorts only by score (stable, so
prior list order decides ties), not by earliest `updated_at`. -/
theorem tie_break_not_by_updated_at :
    (submitAnswer "uB" (mcRequest 25) 5 engineTie).isSuccess = true ∧
    ((submitAnswer "uB" (mcRequest 25) 5 engineTie).engine.scores.map
      (fun s => (s.user_id, s.score, s.rank, s.updated_at))) =
      [("uB", 100, 1, 5), ("uA", 100, 2, 1)] := by
  constructor <;>
    · norm_num [submitAnswer, engineTie, mkEngine, mkPlayer, userA, userB,
        mcRequest, mcQuestion, mkRound, defaultGameSettings, evaluateAnswer,
        applySubmit, computePoints, ratioLt, mkScore, bumpScores, updateFirst,
        sortScores, List.insertionSort, List.orderedInsert, assignRanks,
        mkPlayerResponse]
      rfl

/-- C6 amended: after every accepted Response the leaderboard is sorted by
cumulative points descending with contiguous distinct 1-based ranks in
list order, and ties are broken by stability of the sort — entries with
equal points keep the relative order they had in the updated score table
(in particular the tie-break is by prior list position, not by earliest
`updated_at`). -/
theorem leaderboard_sort_and_ranks
    (userId : String) (req : SubmitAnswerRequest) (now : Nat)
    (engine e' : GameEngine) (resp : PlayerResponse) (pts : Rat)
    (player : GamePlayer)
    (hfind : engine.players.find? (fun p => p.user.id == userId) = some player)
    (h : submitAnswer userId req now engine = .success e' resp pts) :
    (e'.scores.map (fun s => s.score)).Sorted (· ≥ ·) ∧
    e'.scores.map (fun s => s.rank) = List.range' 1 e'.scores.length ∧
    ∀ q : Rat, ((e'.scores.filter (fun s => s.score == q)).map scoreData) =
      ((bumpScores userId req.session_id player.user pts now
          engine.scores).filter (fun s => s.score == q)).map scoreData := by
  obtain ⟨player', round, ev, hfind', hround, heval, happly⟩ :=
    submitAnswer_success_inversion h
  have hpe : player' = player := by
    rw [hfind] at hfind'
    exact (Option.some.inj hfind').symm
  obtain ⟨hpts, hresp, hcr, hscores, hsess, hstat⟩ := applySubmit_components happly
  rw [hpe] at hscores
  refine ⟨?_, ?_, ?_⟩
  · rw [hscores, map_score_assignRanks]
    have hsorted := sortScores_sorted
      (bumpScores userId req.session_id player.user pts now engine.scores)
    exact List.Pairwise.map _ (fun a b hab => hab) hsorted
  · rw [hscores, map_rank_assignRanks, length_assignRanks]
  · intro q
    rw [hscores, filter_score_assignRanks_data, filter_score_sortScores]

/-- C6 amended witness: the concrete accepted submission on `subEngine`
produces the post-state `subEngineAfter`; its single-entry leaderboard is
sorted, ranked `[1]`, and filter-stable at score 100. -/
theorem leaderboard_sort_and_ranks_witness :
    (subEngineAfter.scores.map (fun s => s.score)).Sorted (· ≥ ·) ∧
    subEngineAfter.scores.map (fun s => s.rank) =
      List.range' 1 subEngineAfter.scores.length ∧
    ((subEngineAfter.scores.filter (fun s => s.score == (100 : Rat))).map scoreData) =
      ((bumpScores "uA" "s1" (mkPlayer userA).user 100 5
          subEngine.scores).filter (fun s => s.score == (100 : Rat))).map scoreData := by
  have h : submitAnswer "uA" (mcRequest 25) 5 subEngine =
      .success subEngineAfter subResp 100 := by
    rw [submitAnswer, if_neg (by simp [mcRequest])]
    norm_num [subEngine, subEngineAfter, subResp, subEval, mkEngine,
      mkPlayer, userA, mcRequest, mcQuestion, mkRound, defaultGameSettings,
      evaluateAnswer, applySubmit, computePoints, ratioLt, subScore, bumpScores,
      updateFirst, sortScores, List.insertionSort, List.orderedInsert,
      assignRanks, mkPlayerResponse]
  have T := leaderboard_sort_and_ranks "uA" (mcRequest 25) 5 subEngine
    subEngineAfter subResp 100 (mkPlayer userA)
    (by simp [subEngine, mkEngine, mkPlayer, userA]) h
  exact ⟨T.1, T.2.1, T.2.2 100⟩

/-! ## C10: frame effect of an accepted submission -/

theorem computePoints_nonneg (q : Question) (settings : GameSettings)
    (isCorrect : Bool) (t : Rat) (hpos : 0 ≤ q.points) :
    0 ≤ computePoints q settings isCorrect t := by
  unfold computePoints
  split
  · have hb : ∀ c : Rat, 0 ≤ c → (0 : Rat) ≤ ((jsRound (q.points * c) : Int) : Rat) := by
      intro c hc
      have : (0 : Int) ≤ jsRound (q.points * c) := by
        rw [jsRound]
        rw [Rat.le_floor]
        push_cast
        nlinarith
      exact_mod_cast this
    have h2 := hb (1 / 2) (by norm_num)
    have h4 := hb (1 / 4) (by norm_num)
    split
    · split
      · linarith
      · split
        · linarith
        · linarith
    · linarith
  · exact le_refl 0

theorem updateFirst_key_unique {α : Type _} (key : α → String) (k : String)
    (f : α → α) (hf : ∀ a, key (f a) = key a) :
    ∀ l : List α, (l.map key).Nodup →
      ∀ t ∈ updateFirst (fun a => key a == k) f l, key t = k →
        ∃ a ∈ l, key a = k ∧ t = f a := by
  intro l
  induction l with
  | nil => intro _ t ht; cases ht
  | cons b l ih =>
    intro hnd t ht htk
    by_cases hb : (key b == k) = true
    · simp only [updateFirst, if_pos hb] at ht
      rcases List.mem_cons.mp ht with rfl | ht
      · exact ⟨b, List.mem_cons_self b l, by simpa using hb, rfl⟩
      · exfalso
        have hbk : key b = k := by simpa using hb
        have : key t ∈ l.map key := List.mem_map_of_mem key ht
        rw [htk, ← hbk] at this
        exact (List.nodup_cons.mp hnd).1 this
    · simp only [updateFirst, if_neg hb] at ht
      rcases List.mem_cons.mp ht with rfl | ht
      · exact absurd (by simpa using htk) (by simpa using hb)
      · obtain ⟨a, ha, hak, hta⟩ := ih (List.nodup_cons.mp hnd).2 t ht htk
        exact ⟨a, List.mem_cons_of_mem b ha, hak, hta⟩

theorem mem_updateFirst_of_key_ne {α : Type _} (key : α → String) (k : String)
    (f : α → α) (hf : ∀ a, key (f a) = key a) {l : List α} {t : α}
    (ht : t ∈ updateFirst (fun a => key a == k) f l) (htk : key t ≠ k) : t ∈ l := by
  rcases mem_updateFirst _ ht with h | ⟨a, ha, hpa, hta⟩
  · exact h
  · exfalso
    apply htk
    rw [hta, hf a]
    simpa using hpa

/-- Submitter's entry in the bumped score table: with duplicate-free user
ids it carries exactly the old score plus the awarded points and a fresh
`updated_at`. -/
theorem bumpScores_submitter {userId sessionId : String} {user : User}
    {pts : Rat} {now : Nat} {scores : List PlayerScore}
    (hnd : (scores.map (fun s => s.user_id)).Nodup) {t : PlayerScore}
    (ht : t ∈ bumpScores userId sessionId user pts now scores)
    (htk : t.user_id = userId) :
    t.score = (((scores.find? (fun s => s.user_id == userId)).map
      (fun s => s.score)).getD 0) + pts ∧ t.updated_at = now := by
  simp only [bumpScores] at ht
  cases hfind : scores.find? (fun s => s.user_id == userId) with
  | some s0 =>
    rw [hfind] at ht
    simp only [Option.isSome_some, if_true] at ht
    obtain ⟨a, ha, hak, hta⟩ :=
      updateFirst_key_unique (fun s => s.user_id) userId
        (fun s => { s with score := s.score + pts, updated_at := now })
        (fun _ => rfl) scores hnd t ht htk
    have hs0 : s0 ∈ scores := List.mem_of_find?_eq_some hfind
    have hs0k : s0.user_id = userId := by
      have := List.find?_some hfind
      simpa using this
    have has0 : a = s0 :=
      List.inj_on_of_nodup_map hnd ha hs0 (by rw [hak, hs0k])
    subst has0
    subst hta
    exact ⟨rfl, rfl⟩
  | none =>
    rw [hfind] at ht
    simp only [Option.isSome_none, if_false, Bool.false_eq_true] at ht
    have hnone : ∀ x ∈ scores, x.user_id ≠ userId := by
      intro x hx hxk
      have := List.find?_eq_none.mp hfind x hx
      simp [hxk] at this
    have hnd' : ((scores ++
        [({ user_id := userId, session_id := sessionId, user := user, score := 0,
            rank := 0, accuracy := 0, updated_at := now } : PlayerScore)]).map
          (fun s => s.user_id)).Nodup := by
      rw [List.map_append, List.nodup_append]
      refine ⟨hnd, List.nodup_singleton _, ?_⟩
      intro k hk hk'
      simp only [List.map_cons, List.map_nil, List.mem_singleton] at hk'
      obtain ⟨x, hx, hxk⟩ := List.mem_map.mp hk
      exact hnone x hx (by rw [hxk, hk'])
    obtain ⟨a, ha, hak, hta⟩ :=
      updateFirst_key_unique (fun s => s.user_id) userId
        (fun s => { s with score := s.score + pts, updated_at := now })
        (fun _ => rfl) _ hnd' t ht htk
    rcases List.mem_append.mp ha with hmem | hmem
    · exact absurd hak (hnone a hmem)
    · simp only [List.mem_singleton] at hmem
      subst hmem
      subst hta
      exact ⟨by simp [hfind], rfl⟩

/-- Entries of the bumped score table for other users are taken unchanged
from the old table. -/
theorem bumpScores_other {userId sessionId : String} {user : User}
    {pts : Rat} {now : Nat} {scores : List PlayerScore} {t : PlayerScore}
    (ht : t ∈ bumpScores userId sessionId user pts now scores)
    (htk : t.user_id ≠ userId) : t ∈ scores := by
  simp only [bumpScores] at ht
  have ht' := mem_updateFirst_of_key_ne (fun s : PlayerScore => s.user_id) userId
    (fun s : PlayerScore => { s with score := s.score + pts, updated_at := now })
    (fun _ => rfl) ht htk
  split at ht'
  · exact ht'
  · rcases List.mem_append.mp ht' with hmem | hmem
    · exact hmem
    · simp only [List.mem_singleton] at hmem
      subst hmem
      exact absurd rfl htk

/-- C10.  An accepted submission awards non-negative points (for a
non-negatively priced question), appends exactly the returned Response (by
the submitter) to the current round, changes no other participant's score,
accuracy or `updated_at` (their entries reappear unchanged except for the
rank field), and increases exactly the submitter's cumulative points by
the awarded amount, stamping `updated_at` with the submission time. -/
theorem submit_frame_effect
    (userId : String) (req : SubmitAnswerRequest) (now : Nat)
    (engine e' : GameEngine) (resp : PlayerResponse) (pts : Rat)
    (round : GameRound)
    (h : submitAnswer userId req now engine = .success e' resp pts)
    (hnodup : (engine.scores.map (fun s => s.user_id)).Nodup)
    (hround : engine.current_round = some round)
    (hpos : 0 ≤ round.question.points) :
    0 ≤ pts ∧ resp.user_id = userId ∧
    e'.current_round = some { round with responses := round.responses ++ [resp] } ∧
    (∀ s' ∈ e'.scores, s'.user_id ≠ userId →
      ∃ s ∈ engine.scores, s.user_id = s'.user_id ∧ s'.score = s.score ∧
        s'.accuracy = s.accuracy ∧ s'.updated_at = s.updated_at) ∧
    (∀ s' ∈ e'.scores, s'.user_id = userId →
      s'.score = (((engine.scores.find? (fun s => s.user_id == userId)).map
        (fun s => s.score)).getD 0) + pts ∧ s'.updated_at = now) := by
  obtain ⟨player, round', ev, hfind, hround', heval, happly⟩ :=
    submitAnswer_success_inversion h
  have hrr : round' = round := by
    rw [hround] at hround'
    exact (Option.some.inj hround').symm
  rw [hrr] at happly
  obtain ⟨hpts, hresp, hcr, hscores, hsess, hstat⟩ := applySubmit_components happly
  have hptsnn : 0 ≤ pts := by
    rw [hpts]
    exact computePoints_nonneg _ _ _ _ hpos
  refine ⟨hptsnn, by rw [hresp]; rfl, hcr, ?_, ?_⟩
  · intro s' hs' hne
    rw [hscores] at hs'
    obtain ⟨t, ht, htd⟩ := mem_of_mem_assignRanks hs'
    have hdata : t.user_id = s'.user_id ∧ t.score = s'.score ∧
        t.accuracy = s'.accuracy ∧ t.updated_at = s'.updated_at := by
      simpa [scoreData, Prod.ext_iff] using htd
    have ht2 : t ∈ bumpScores userId req.session_id player.user pts now engine.scores :=
      (sortScores_perm _).mem_iff.mp ht
    have htne : t.user_id ≠ userId := by
      rw [hdata.1]
      exact hne
    exact ⟨t, bumpScores_other ht2 htne, hdata.1, hdata.2.1.symm,
      hdata.2.2.1.symm, hdata.2.2.2.symm⟩
  · intro s' hs' heq
    rw [hscores] at hs'
    obtain ⟨t, ht, htd⟩ := mem_of_mem_assignRanks hs'
    have hdata : t.user_id = s'.user_id ∧ t.score = s'.score ∧
        t.accuracy = s'.accuracy ∧ t.updated_at = s'.updated_at := by
      simpa [scoreData, Prod.ext_iff] using htd
    have ht2 : t ∈ bumpScores userId req.session_id player.user pts now engine.scores :=
      (sortScores_perm _).mem_iff.mp ht
    have htk : t.user_id = userId := by
      rw [hdata.1]
      exact heq
    obtain ⟨h1, h2⟩ := bumpScores_submitter hnodup ht2 htk
    constructor
    · rw [← hdata.2.1]
      exact h1
    · rw [← hdata.2.2.2]
      exact h2

/-- C10 witness: on the concrete accepted submission, the awarded 100
points are non-negative, the Response belongs to the submitter and is the
round's only new Response, and the submitter's entry carries the old score
(0, no prior entry) plus 100 with `updated_at = 5`. -/
theorem submit_frame_effect_witness :
    (0 : Rat) ≤ 100 ∧ subResp.user_id = "uA" ∧
    subEngineAfter.current_round =
      some { mkRound (mcQuestion 100) [] with responses := [subResp] } ∧
    (subScore.score = (((subEngine.scores.find? (fun s => s.user_id == "uA")).map
      (fun s => s.score)).getD 0) + 100 ∧ subScore.updated_at = 5) := by
  have h : submitAnswer "uA" (mcRequest 25) 5 subEngine =
      .success subEngineAfter subResp 100 := by
    rw [submitAnswer, if_neg (by simp [mcRequest])]
    norm_num [subEngine, subEngineAfter, subResp, subEval, mkEngine,
      mkPlayer, userA, mcRequest, mcQuestion, mkRound, defaultGameSettings,
      evaluateAnswer, applySubmit, computePoints, ratioLt, subScore, bumpScores,
      updateFirst, sortScores, List.insertionSort, List.orderedInsert,
      assignRanks, mkPlayerResponse]
  have T := submit_frame_effect "uA" (mcRequest 25) 5 subEngine subEngineAfter
    subResp 100 (mkRound (mcQuestion 100) []) h
    (by simp [subEngine, mkEngine])
    (by simp [subEngine, mkEngine])
    (by norm_num [mkRound, mcQuestion])
  exact ⟨T.1, T.2.1, T.2.2.1,
    T.2.2.2.2 subScore (by simp [subEngineAfter]) (by simp [subScore])⟩

/-! ## C3: round monotonicity over the session state machine -/

/-- A submit-answer call never changes the session record or the engine
status (whether it is accepted or rejected). -/
theorem submitAnswer_preserves_session (u : String) (r : SubmitAnswerRequest)
    (n : Nat) (e : GameEngine) :
    (submitAnswer u r n e).engine.session = e.session ∧
    (submitAnswer u r n e).engine.status = e.status := by
  unfold submitAnswer applySubmit
  repeat' split
  all_goals exact ⟨rfl, rfl⟩

/-- The session invariant holds at creation. -/
theorem engineInv_init (sessionId roomId : String) (settings : GameSettings)
    (questions : List Question) (now : Nat) :
    EngineInv (createEngine sessionId roomId settings questions now) := by
  unfold EngineInv createEngine
  by_cases h : settings.questions_per_game = 0 <;> simp [h] <;> omega

/-- One session operation preserves the invariant, never decreases
`current_round`, and changes it only by exactly one. -/
theorem engineInv_step {e e' : GameEngine} (hinv : EngineInv e)
    (hstep : Step e e') :
    EngineInv e' ∧
    e.session.current_round ≤ e'.session.current_round ∧
    (e'.session.current_round = e.session.current_round ∨
      e'.session.current_round = e.session.current_round + 1) := by
  obtain ⟨hb, ht, hw⟩ := hinv
  cases hstep with
  | start sessionId now e =>
    by_cases hwait : e.status = GameStatus.waiting
    · have hcr0 := hw hwait
      simp only [startGame]
      rw [if_neg (not_not_intro hwait)]
      split
      · exact ⟨⟨hb, ht, hw⟩, le_refl _, Or.inl rfl⟩
      · split
        · exact ⟨⟨hb, ht, hw⟩, le_refl _, Or.inl rfl⟩
        · simp only [OpResult.engine, EngineInv]
          refine ⟨⟨?_, ?_, ?_⟩, ?_, ?_⟩ <;> first | (simp; omega) | simp | omega
    · simp only [startGame]
      rw [if_pos hwait]
      exact ⟨⟨hb, ht, hw⟩, le_refl _, Or.inl rfl⟩
  | advance sessionId now e =>
    by_cases hst : e.status = GameStatus.question ∨ e.status = GameStatus.results
    · simp only [advanceRound]
      rw [if_neg (not_not_intro hst)]
      by_cases hbig : e.session.current_round + 1 > e.session.total_rounds
      · rw [if_pos hbig]
        simp only [OpResult.engine, EngineInv]
        refine ⟨⟨?_, ?_, ?_⟩, ?_, ?_⟩ <;> first | (simp; omega) | simp | omega
      · rw [if_neg hbig]
        split
        · exact ⟨⟨hb, ht, hw⟩, le_refl _, Or.inl rfl⟩
        · simp only [OpResult.engine, EngineInv]
          refine ⟨⟨?_, ?_, ?_⟩, ?_, ?_⟩ <;> first | (simp; omega) | simp | omega
    · simp only [advanceRound]
      rw [if_pos hst]
      exact ⟨⟨hb, ht, hw⟩, le_refl _, Or.inl rfl⟩
  | finish now e =>
    simp only [endGame, OpResult.engine, EngineInv]
    refine ⟨⟨?_, ?_, ?_⟩, ?_, ?_⟩ <;> first | (simp; omega) | simp | omega
  | submit userId req now e =>
    obtain ⟨hsess, hstat⟩ := submitAnswer_preserves_session userId req now e
    refine ⟨⟨?_, ?_, ?_⟩, ?_, ?_⟩
    · rw [hsess]; exact hb
    · rw [hsess]; exact ht
    · intro hcon
      rw [hstat] at hcon
      rw [hsess]
      exact hw hcon
    · rw [hsess]
    · rw [hsess]; exact Or.inl rfl
  | join p e =>
    exact ⟨⟨hb, ht, hw⟩, le_refl _, Or.inl rfl⟩
  | beginQuestion e hcd =>
    refine ⟨⟨hb, ht, ?_⟩, le_refl _, Or.inl rfl⟩
    intro hcon
    cases hcon
  | sealRound e hq =>
    refine ⟨⟨hb, ht, ?_⟩, le_refl _, Or.inl rfl⟩
    intro hcon
    cases hcon

/-- The invariant holds in every reachable state. -/
theorem engineInv_reachable {init e : GameEngine} (hinit : EngineInv init)
    (hreach : ReachableFrom init e) : EngineInv e := by
  induction hreach with
  | refl => exact hinit
  | tail hsteps hstep ih => exact (engineInv_step ih hstep).1

/-- C3.  Along every operation sequence from a freshly created session,
`current_round` never exceeds `total_rounds`, and each further operation
leaves `current_round` unchanged or increases it by exactly one — it is
non-decreasing and no round number is ever re-entered. -/
theorem current_round_monotone_and_bounded
    (sessionId roomId : String) (settings : GameSettings)
    (questions : List Question) (now : Nat) (e e' : GameEngine)
    (hreach : ReachableFrom (createEngine sessionId roomId settings questions now) e) :
    e.session.current_round ≤ e.session.total_rounds ∧
    (Step e e' →
      e.session.current_round ≤ e'.session.current_round ∧
      (e'.session.current_round = e.session.current_round ∨
        e'.session.current_round = e.session.current_round + 1) ∧
      e'.session.current_round ≤ e'.session.total_rounds) := by
  have hinv := engineInv_reachable
    (engineInv_init sessionId roomId settings questions now) hreach
  refine ⟨hinv.1, ?_⟩
  intro hstep
  obtain ⟨hinv', hmono, hone⟩ := engineInv_step hinv hstep
  exact ⟨hmono, hone, hinv'.1⟩

/-- C3 witness: a concrete two-step trace — create a session, then start
it — satisfies both the bound and the per-step monotonicity. -/
theorem current_round_monotone_and_bounded_witness :
    (createEngine "s1" "r1" defaultGameSettings [mcQuestion 100] 0).session.current_round ≤
      (createEngine "s1" "r1" defaultGameSettings [mcQuestion 100] 0).session.total_rounds ∧
    ((createEngine "s1" "r1" defaultGameSettings [mcQuestion 100] 0).session.current_round ≤
      (startGame "s1" 1 (createEngine "s1" "r1" defaultGameSettings [mcQuestion 100] 0)).engine.session.current_round ∧
     ((startGame "s1" 1 (createEngine "s1" "r1" defaultGameSettings [mcQuestion 100] 0)).engine.session.current_round =
        (createEngine "s1" "r1" defaultGameSettings [mcQuestion 100] 0).session.current_round ∨
      (startGame "s1" 1 (createEngine "s1" "r1" defaultGameSettings [mcQuestion 100] 0)).engine.session.current_round =
        (createEngine "s1" "r1" defaultGameSettings [mcQuestion 100] 0).session.current_round + 1) ∧
     (startGame "s1" 1 (createEngine "s1" "r1" defaultGameSettings [mcQuestion 100] 0)).engine.session.current_round ≤
       (startGame "s1" 1 (createEngine "s1" "r1" defaultGameSettings [mcQuestion 100] 0)).engine.session.total_rounds) := by
  have T := current_round_monotone_and_bounded "s1" "r1" defaultGameSettings
    [mcQuestion 100] 0
    (createEngine "s1" "r1" defaultGameSettings [mcQuestion 100] 0)
    (startGame "s1" 1 (createEngine "s1" "r1" defaultGameSettings [mcQuestion 100] 0)).engine
    Relation.ReflTransGen.refl
  exact ⟨T.1, T.2 (Step.start "s1" 1 _)⟩

/-! ## C9: hub broadcast with slow-consumer isolation -/

theorem find?_updateFirst_id_ne (f : HubClient → HubClient)
    (hf : ∀ c, (f c).id = c.id) (cid cid' : Nat) (hne : cid' ≠ cid) :
    ∀ l : List HubClient,
      (updateFirst (fun c => c.id == cid) f l).find? (fun c => c.id == cid') =
        l.find? (fun c => c.id == cid') := by
  intro l
  induction l with
  | nil => rfl
  | cons a l ih =>
    by_cases ha : (a.id == cid) = true
    · have haeq : a.id = cid := by simpa using ha
      have ha' : (a.id == cid') = false := by
        apply beq_false_of_ne
        rw [haeq]
        exact fun hcon => hne hcon.symm
      have hfa' : ((f a).id == cid') = false := by rw [hf a]; exact ha'
      simp only [updateFirst, if_pos ha, List.find?, hfa', ha']
    · simp only [updateFirst, if_neg ha, List.find?]
      by_cases ha' : (a.id == cid') = true
      · simp [ha']
      · simp only [Bool.not_eq_true] at ha'
        simp [ha', ih]

theorem find?_filter_id_ne (cid cid' : Nat) (hne : cid' ≠ cid) :
    ∀ l : List HubClient,
      (l.filter (fun c => c.id != cid)).find? (fun c => c.id == cid') =
        l.find? (fun c => c.id == cid') := by
  intro l
  induction l with
  | nil => rfl
  | cons a l ih =>
    by_cases ha : (a.id != cid) = true
    · simp only [List.filter_cons, ha, if_true]
      by_cases ha' : (a.id == cid') = true
      · simp [List.find?, ha']
      · simp only [Bool.not_eq_true] at ha'
        simp [List.find?, ha', ih]
    · have haeq : a.id = cid := by simpa using ha
      have ha' : (a.id == cid') = false := by
        apply beq_false_of_ne
        rw [haeq]
        exact fun hcon => hne hcon.symm
      simp only [Bool.not_eq_true] at ha
      simp only [List.filter_cons, ha, Bool.false_eq_true, if_false]
      simp [List.find?, ha', ih]

theorem find?_updateFirst_self (f : HubClient → HubClient)
    (hf : ∀ c, (f c).id = c.id) (cid : Nat) :
    ∀ (l : List HubClient) (c : HubClient),
      l.find? (fun x => x.id == cid) = some c →
        (updateFirst (fun x => x.id == cid) f l).find? (fun x => x.id == cid) =
          some (f c) := by
  intro l
  induction l with
  | nil => intro c hc; cases hc
  | cons a l ih =>
    intro c hc
    by_cases ha : (a.id == cid) = true
    · have hca : c = a := by
        simp only [List.find?, ha] at hc
        exact (Option.some.inj hc).symm
      subst hca
      have hfa : ((f c).id == cid) = true := by rw [hf c]; exact ha
      simp [updateFirst, ha, List.find?, hfa]
    · have hc' : l.find? (fun x => x.id == cid) = some c := by
        simpa [List.find?, ha] using hc
      simp only [updateFirst, if_neg ha, List.find?, ha]
      exact ih c hc'

theorem find?_filter_self (cid : Nat) (l : List HubClient) :
    (l.filter (fun c => c.id != cid)).find? (fun c => c.id == cid) = none := by
  apply List.find?_eq_none.mpr
  intro x hx
  have := (List.mem_filter.mp hx).2
  simpa using this

/-- A broadcast iteration for one member does not affect how any other
client id resolves in the registry. -/
theorem broadcastStep_find_other (roomID message : String) (h : Hub)
    (cid cid' : Nat) (hne : cid' ≠ cid) :
    (broadcastStep roomID message h cid).clients.find? (fun c => c.id == cid') =
      h.clients.find? (fun c => c.id == cid') := by
  unfold broadcastStep
  split
  · rfl
  · split
    · exact find?_updateFirst_id_ne
        (fun cl => { cl with send := cl.send ++ [message] }) (fun _ => rfl)
        cid cid' hne h.clients
    · exact find?_filter_id_ne cid cid' hne h.clients

theorem foldl_broadcastStep_find_not_mem (roomID message : String) :
    ∀ (ms : List Nat) (h : Hub) (cid : Nat), cid ∉ ms →
      ((ms.foldl (broadcastStep roomID message) h).clients.find?
        (fun c => c.id == cid)) = h.clients.find? (fun c => c.id == cid) := by
  intro ms
  induction ms with
  | nil => intro h cid _; rfl
  | cons m ms ih =>
    intro h cid hnm
    have hne : cid ≠ m := fun hcon => hnm (hcon ▸ List.mem_cons_self m ms)
    rw [List.foldl_cons, ih _ cid (fun hcon => hnm (List.mem_cons_of_mem m hcon)),
      broadcastStep_find_other roomID message h m cid hne]

/-- A broadcast iteration only ever shrinks room member sets, and keeps
every room's id. -/
theorem broadcastStep_room_subset (roomID message : String) (h : Hub) (cid : Nat) :
    ∀ r ∈ (broadcastStep roomID message h cid).rooms,
      ∃ r' ∈ h.rooms, r.fst = r'.fst ∧ ∀ x ∈ r.snd, x ∈ r'.snd := by
  unfold broadcastStep
  split
  · intro r hr
    exact ⟨r, hr, rfl, fun x hx => hx⟩
  · split
    · intro r hr
      exact ⟨r, hr, rfl, fun x hx => hx⟩
    · intro r hr
      simp only [List.mem_map] at hr
      obtain ⟨r0, hr0, hr0r⟩ := hr
      refine ⟨r0, hr0, ?_, ?_⟩
      · rw [← hr0r]
        split <;> rfl
      · intro x hx
        rw [← hr0r] at hx
        revert hx
        split
        · intro hx
          exact (List.mem_filter.mp hx).1
        · intro hx
          exact hx

theorem foldl_broadcastStep_room_not_member (roomID message : String) :
    ∀ (ms : List Nat) (h : Hub) (cid : Nat),
      (∀ r ∈ h.rooms, r.fst = roomID → cid ∉ r.snd) →
      ∀ r ∈ (ms.foldl (broadcastStep roomID message) h).rooms,
        r.fst = roomID → cid ∉ r.snd := by
  intro ms
  induction ms with
  | nil => intro h cid hout; exact hout
  | cons m ms ih =>
    intro h cid hout
    apply ih
    intro r hr hfst hmem
    obtain ⟨r', hr', hfst', hsub⟩ :=
      broadcastStep_room_subset roomID message h m r hr
    exact hout r' hr' (by rw [← hfst', hfst]) (hsub cid hmem)

/-- C9.  Broadcasting to a room offers the message to every registered
member: a member whose bounded outbound queue has free capacity stays
registered and receives the message at the end of its queue, while a
member whose queue is full is dropped — removed from the client registry
and from the room's member set — without affecting delivery to any other
member. -/
theorem broadcast_slow_consumer_isolation
    (h : Hub) (roomID message : String) (members : List Nat)
    (hroom : h.rooms.find? (fun r => r.fst == roomID) = some (roomID, members))
    (hnodup : members.Nodup)
    (cid : Nat) (c : HubClient)
    (hmem : cid ∈ members)
    (hc : h.clients.find? (fun x => x.id == cid) = some c) :
    (c.send.length < c.sendCap →
      (h.broadcastToRoom roomID message).clients.find? (fun x => x.id == cid) =
        some { c with send := c.send ++ [message] }) ∧
    (¬ c.send.length < c.sendCap →
      (h.broadcastToRoom roomID message).clients.find? (fun x => x.id == cid) = none ∧
      ∀ r ∈ (h.broadcastToRoom roomID message).rooms, r.fst = roomID → cid ∉ r.snd) := by
  obtain ⟨pre, post, rfl⟩ := List.append_of_mem hmem
  have hpre : cid ∉ pre := by
    intro hcon
    rcases List.nodup_append.mp hnodup with ⟨-, -, hdis⟩
    exact hdis hcon (List.mem_cons_self cid post)
  have hpost : cid ∉ post := by
    rcases List.nodup_append.mp hnodup with ⟨-, hnd2, -⟩
    exact (List.nodup_cons.mp hnd2).1
  have hunfold : h.broadcastToRoom roomID message =
      (cid :: post).foldl (broadcastStep roomID message)
        (pre.foldl (broadcastStep roomID message) h) := by
    unfold Hub.broadcastToRoom
    rw [hroom]
    exact List.foldl_append _ _ pre (cid :: post)
  set h1 := pre.foldl (broadcastStep roomID message) h with hh1
  have hfind1 : h1.clients.find? (fun x => x.id == cid) = some c := by
    rw [hh1, foldl_broadcastStep_find_not_mem roomID message pre h cid hpre]
    exact hc
  constructor
  · intro hspace
    rw [hunfold, List.foldl_cons]
    rw [foldl_broadcastStep_find_not_mem roomID message post _ cid hpost]
    simp only [broadcastStep, hfind1]
    rw [if_pos hspace]
    exact find?_updateFirst_self
      (fun cl => { cl with send := cl.send ++ [message] }) (fun _ => rfl)
      cid h1.clients c hfind1
  · intro hfull
    rw [hunfold, List.foldl_cons]
    have hstep : broadcastStep roomID message h1 cid =
        { clients := h1.clients.filter (fun cl => cl.id != cid),
          rooms := h1.rooms.map (fun r =>
            if r.fst == roomID then (r.fst, r.snd.filter (fun i => i != cid))
            else r) } := by
      simp only [broadcastStep, hfind1]
      rw [if_neg hfull]
    constructor
    · rw [foldl_broadcastStep_find_not_mem roomID message post _ cid hpost, hstep]
      exact find?_filter_self cid h1.clients
    · apply foldl_broadcastStep_room_not_member
      rw [hstep]
      intro r hr hfst
      simp only [List.mem_map] at hr
      obtain ⟨r0, hr0, hr0r⟩ := hr
      by_cases hb : (r0.fst == roomID) = true
      · rw [← hr0r]
        simp only [if_pos hb]
        intro hcon
        have := (List.mem_filter.mp hcon).2
        simp at this
      · exfalso
        rw [← hr0r] at hfst
        rw [if_neg hb] at hfst
        exact absurd (by simpa using hfst) (by simpa using hb)

/-- C9 witness: broadcasting to room "r" of the concrete hub delivers the
message to client 1 (queue empty, capacity 256) and drops client 2 (queue
full at capacity 1) from the registry and from the room. -/
theorem broadcast_slow_consumer_isolation_witness :
    (hubEx.broadcastToRoom "r" "msg").clients.find? (fun x => x.id == 1) =
      some { hubClient1 with send := ["msg"] } ∧
    (hubEx.broadcastToRoom "r" "msg").clients.find? (fun x => x.id == 2) = none ∧
    (2 : Nat) ∉ (("r", [1]) : String × List Nat).snd := by
  have T1 := broadcast_slow_consumer_isolation hubEx "r" "msg" [1, 2] rfl
    (by decide) 1 hubClient1 (by decide) rfl
  have T2 := broadcast_slow_consumer_isolation hubEx "r" "msg" [1, 2] rfl
    (by decide) 2 hubClient2 (by decide) rfl
  refine ⟨(T1.1 (by decide)).trans (by decide), (T2.2 (by decide)).1, ?_⟩
  exact (T2.2 (by decide)).2 ("r", [1]) (by decide) rfl

end GyroApp
